import Mathlib

/-!
# VTK writer of the APF mesh library (`apf/apfVtk.cc`)

A shallow embedding of the `.vtu` / `.pvtu` writer.  A stream (`std::ostream`,
`std::stringstream`) is the sequence of characters written to it; every
`file << x` appends the characters of `x`.  The mesh, the field storage and the
communication layer are collaborators of the writer and appear as data:
the embedding reads them exactly through the accessors the C++ code calls.
-/

set_option autoImplicit false
set_option maxRecDepth 100000

namespace apf

/-! ## Streams and number formatting -/

/-- Characters written to a stream. -/
abbrev Text := List Char

/-- The characters of a C string literal, as appended by `file << "..."`. -/
def lit (s : String) : Text := s.data

/-- One decimal digit as a character. -/
def digitChar : Nat → Char
  | 0 => '0'
  | 1 => '1'
  | 2 => '2'
  | 3 => '3'
  | 4 => '4'
  | 5 => '5'
  | 6 => '6'
  | 7 => '7'
  | 8 => '8'
  | _ => '9'

/-- Decimal digits of `n`, least significant first; `fuel` bounds the number of
digits and `n + 1` is always enough. -/
def digitsLE : Nat → Nat → List Nat
  | 0, _ => []
  | fuel + 1, n => if n < 10 then [n] else (n % 10) :: digitsLE fuel (n / 10)

/-- Decimal text of a non-negative integer (`operator<<` on a count, a size or a
non-negative `int`). -/
def showNat (n : Nat) : Text := ((digitsLE (n + 1) n).reverse).map digitChar

/-- Decimal text of a signed integer (`operator<<` on `int` / `long`). -/
def showInt : Int → Text
  | Int.ofNat n => showNat n
  | Int.negSucc n => '-' :: showNat (n + 1)

/-- Body of `for (int i = 0; i < n; ++i) file << body(i);`. -/
def forUpTo (body : Nat → Text) : Nat → Text
  | 0 => []
  | n + 1 => forUpTo body n ++ body n

/-- Body of `while ((e = m->iterate(it))) file << body(e);` over the entities
(or array slots) in iteration order. -/
def forEach {α : Type} (body : α → Text) : List α → Text
  | [] => []
  | x :: xs => body x ++ forEach body xs

/-- Number of rows of an ASCII payload: every row is terminated by a newline. -/
def countRows (t : Text) : Nat := t.count '\n'

/-! ## Data model: mesh, shapes, field-like objects -/

/-- A mesh entity handle (`MeshEntity*`). -/
abbrev MeshEntity := Nat

/-- `Mesh::Type`: VERTEX = 0, EDGE, TRIANGLE, QUAD, TET, HEX, PRISM, PYRAMID = 7;
`Mesh::TYPES` = 8. -/
abbrev MeshType := Nat

/-- `Mesh::ValueType`, the scalar type tag returned by `getScalarType()`. -/
inductive ValueType where
  | DOUBLE
  | INT
  | LONG
  deriving DecidableEq, Repr

/-- A node-distribution shape (`FieldShape*`), read through the accessors the
writer calls.  `addr` is the identity of the object: `isNodal` compares shape
pointers. -/
structure FieldShape where
  addr : Nat
  hasNodesIn : Nat → Bool
  countNodesOn : MeshType → Nat
  elementNodes : MeshType → Nat
  getOrder : Int

/-- A field-like object (`FieldBase*`): value field, numbering or global
numbering, with element type `T`.  `getNodeComponents e node j` is component `j`
of what `getData()->getNodeComponents(e, node, out)` stores in `out`;
`hasEntity` is `getData()->hasEntity`. -/
structure FieldBase (T : Type) where
  getName : Text
  getScalarType : ValueType
  countComponents : Nat
  getShape : FieldShape
  hasEntity : MeshEntity → Bool
  getNodeComponents : MeshEntity → Nat → Nat → T

/-- A node of the partition: `(entity, local node index)`. -/
structure Node where
  entity : MeshEntity
  node : Nat
  deriving DecidableEq, Repr

/-- An integer numbering (`Numbering*`).  `getElementNumbers e i` is slot `i` of
the array filled by `getElementNumbers(n, e, numbers)`, and `getNodes` is the
array filled by `getNodes(n, nodes)`. -/
structure Numbering extends FieldBase Int where
  getElementNumbers : MeshEntity → Nat → Int
  getNodes : List Node

/-- The mesh (`Mesh*`) with element type `D` for `double`.  `entities d` is the
sequence `m->begin(d)`, `m->iterate(it)`, ... yields; `count d` is its length. -/
structure Mesh (D : Type) where
  getDimension : Nat
  getShape : FieldShape
  entities : Nat → List MeshEntity
  getType : MeshEntity → MeshType
  getId : Int
  getCoordinateField : FieldBase D
  fields : List (FieldBase D)
  numberings : List Numbering
  globalNumberings : List (FieldBase Int)

/-- The `m->count(d)` accessor. -/
def Mesh.count {D : Type} (m : Mesh D) (d : Nat) : Nat := (m.entities d).length

/-- The `f->countNodesOn(e)` accessor: the shape's node count on the type of `e`. -/
def FieldBase.countNodesOn {D T : Type} (f : FieldBase T) (m : Mesh D) (e : MeshEntity) :
    Nat :=
  f.getShape.countNodesOn (m.getType e)

/-! ## Entity traversal (`FieldOp`) -/

/-- A traversal object with state `σ`: the three callbacks of `FieldOp`. -/
structure FieldOp (σ : Type) where
  inEntity : σ → MeshEntity → σ × Bool
  atNode : σ → Nat → σ
  outEntity : σ → σ

/-- The node loop of the traversal: `atNode(0)`, ..., `atNode(n - 1)`. -/
def FieldOp.nodeLoop {σ : Type} (op : FieldOp σ) : Nat → σ → σ
  | 0, s => s
  | n + 1, s => op.atNode (FieldOp.nodeLoop op n s) n

/-- The entity loop of the traversal over the entities of one dimension. -/
def FieldOp.entityLoop {σ : Type} (op : FieldOp σ) (nodesOn : MeshEntity → Nat) :
    List MeshEntity → σ → σ
  | [], s => s
  | e :: es, s =>
    let r := op.inEntity s e
    if r.2 then
      FieldOp.entityLoop op nodesOn es (op.outEntity (FieldOp.nodeLoop op (nodesOn e) r.1))
    else
      FieldOp.entityLoop op nodesOn es r.1

/-- The dimension loop of the traversal over the listed dimensions. -/
def FieldOp.dimLoop {D T σ : Type} (op : FieldOp σ) (m : Mesh D) (f : FieldBase T) :
    List Nat → σ → σ
  | [], s => s
  | d :: ds, s =>
    if f.getShape.hasNodesIn d then
      FieldOp.dimLoop op m f ds (FieldOp.entityLoop op (f.countNodesOn m) (m.entities d) s)
    else
      FieldOp.dimLoop op m f ds s

/-- Modelled from the spec: `FieldOp::apply`, the traversal behind `HasAll` and
`WriteIPField`, is declared in a header that is not among the sources.  It
iterates every mesh entity the field's shape is valid over: for each dimension
0..3 in which the shape has nodes, every entity of that dimension in mesh order;
`inEntity` decides whether the entity's nodes are visited, and then `atNode` runs
for each local node index followed by `outEntity`. -/
def FieldOp.apply {D T σ : Type} (op : FieldOp σ) (m : Mesh D) (f : FieldBase T) (s : σ) : σ :=
  FieldOp.dimLoop op m f [0, 1, 2, 3] s

/-- The entities the traversal of `f` visits, in order. -/
def visited {D T : Type} (m : Mesh D) (f : FieldBase T) : List MeshEntity :=
  ([0, 1, 2, 3].filter (fun d => f.getShape.hasNodesIn d)).flatMap m.entities

/-! ## Field classifier -/

/-- The `HasAll` operation: the state is the flag `ok`; `inEntity` clears it on
an entity without data and never asks for the nodes. -/
def HasAll {T : Type} (f : FieldBase T) : FieldOp Bool where
  inEntity := fun ok e => (if !f.hasEntity e then false else ok, false)
  atNode := fun ok _ => ok
  outEntity := fun ok => ok

/-- The `HasAll::run` method: `ok = true; apply(f); return ok;`. -/
def HasAll.run {D T : Type} (m : Mesh D) (f : FieldBase T) : Bool :=
  (HasAll f).apply m f true

/-- The `isPrintable` predicate. -/
def isPrintable {D T : Type} (m : Mesh D) (f : FieldBase T) : Bool :=
  HasAll.run m f

/-- The `isNodal` predicate: the field's shape is the mesh's shape object. -/
def isNodal {D T : Type} (m : Mesh D) (f : FieldBase T) : Bool :=
  f.getShape.addr == m.getShape.addr

/-- The loop of `isIP`: `for (i = i0; i < d; ++i) if (s->hasNodesIn(i)) return false;`
followed by `return s->hasNodesIn(d)`; `k` is the number of iterations left. -/
def isIPLoop (s : FieldShape) (d : Nat) : Nat → Nat → Bool
  | 0, _ => s.hasNodesIn d
  | k + 1, i => if s.hasNodesIn i then false else isIPLoop s d k (i + 1)

/-- The `isIP` predicate. -/
def isIP {D T : Type} (m : Mesh D) (f : FieldBase T) : Bool :=
  isIPLoop f.getShape m.getDimension m.getDimension 0

/-! ## Array headers -/

/-- The `typeNames` table of `describeArray`, indexed by the scalar type tag. -/
def typeNames : ValueType → Text
  | ValueType.DOUBLE => lit "Float64"
  | ValueType.INT => lit "Int32"
  | ValueType.LONG => lit "Int64"

/-- The `describeArray` function: the attributes of an array tag. -/
def describeArray (name : Text) (type : ValueType) (size : Nat) (isWritingBinary : Bool) :
    Text :=
  lit "type=\"" ++ typeNames type ++ lit "\" Name=\"" ++ name ++
    (if isWritingBinary then
      lit "\" format=\"binary\""
    else
      lit "\" NumberOfComponents=\"" ++ showNat size ++ lit "\" format=\"ascii\"")

/-- The `writePDataArray(file, name, type, size)` overload. -/
def writePDataArray (name : Text) (type : ValueType) (size : Nat) : Text :=
  lit "<PDataArray " ++ describeArray name type size false ++ lit "/>\n"

/-- The `writePDataArray(file, f)` overload. -/
def writePDataArrayOf {T : Type} (f : FieldBase T) : Text :=
  lit "<PDataArray " ++ describeArray f.getName f.getScalarType f.countComponents false ++
    lit "/>\n"

/-- The `writePPoints` function. -/
def writePPoints {T : Type} (f : FieldBase T) : Text :=
  lit "<PPoints>\n" ++ writePDataArrayOf f ++ lit "</PPoints>\n"

/-- The `writePPointData` function: one declaration per nodal, printable
field-like object, in the order fields, numberings, global numberings. -/
def writePPointData {D : Type} (m : Mesh D) : Text :=
  lit "<PPointData>\n" ++
    forEach (fun f => if isNodal m f && isPrintable m f then writePDataArrayOf f else [])
      m.fields ++
    forEach (fun (n : Numbering) =>
        if isNodal m n.toFieldBase && isPrintable m n.toFieldBase then
          writePDataArrayOf n.toFieldBase
        else [])
      m.numberings ++
    forEach (fun n => if isNodal m n && isPrintable m n then writePDataArrayOf n else [])
      m.globalNumberings ++
    lit "</PPointData>\n"

/-! ## Integration-point fields in the summary file -/

/-- The `countIPs` function: the node count of `f` on the first entity of
`m->begin(m->getDimension())`.  With no such entity `m->iterate` returns the null
entity and the node count of it is not defined: `none`. -/
def countIPs {D T : Type} (m : Mesh D) (f : FieldBase T) : Option Nat :=
  match m.entities m.getDimension with
  | [] => none
  | e :: _ => some (f.countNodesOn m e)

/-- The `getIPName` function: `name_<point+1>`. -/
def getIPName {T : Type} (f : FieldBase T) (point : Nat) : Text :=
  f.getName ++ ['_'] ++ showNat (point + 1)

/-- Like `forEach`, for a body that may be undefined. -/
def forEachOpt {α : Type} (body : α → Option Text) : List α → Option Text
  | [] => some []
  | x :: xs => do
    let t ← body x
    let rest ← forEachOpt body xs
    pure (t ++ rest)

/-- The `writeIP_PCellData` function. -/
def writeIP_PCellData {D T : Type} (m : Mesh D) (f : FieldBase T) : Option Text := do
  let n ← countIPs m f
  pure (forUpTo (fun p => writePDataArray (getIPName f p) f.getScalarType f.countComponents) n)

/-- The `writePCellParts` function. -/
def writePCellParts : Text := writePDataArray (lit "apf_part") ValueType.INT 1

/-- The `writePCellData` function. -/
def writePCellData {D : Type} (m : Mesh D) : Option Text := do
  let a ← forEachOpt
    (fun f => if isIP m f && isPrintable m f then writeIP_PCellData m f else some []) m.fields
  let b ← forEachOpt
    (fun (n : Numbering) =>
      if isIP m n.toFieldBase && isPrintable m n.toFieldBase then
        writeIP_PCellData m n.toFieldBase
      else some [])
    m.numberings
  let c ← forEachOpt
    (fun n => if isIP m n && isPrintable m n then writeIP_PCellData m n else some [])
    m.globalNumberings
  pure (lit "<PCellData>\n" ++ a ++ b ++ c ++ writePCellParts ++ lit "</PCellData>\n")

/-! ## File names and piece sources -/

/-- The `getPieceFileName` function: `pre`, the decimal id, `.vtu`. -/
def getPieceFileName (pre : Text) (id : Int) : Text :=
  pre ++ showInt id ++ lit ".vtu"

/-- The `s.rfind(c)` method of `std::string`: index of the last occurrence,
`none` for `npos`. -/
def rfind (c : Char) : Text → Option Nat
  | [] => none
  | x :: xs =>
    match rfind c xs with
    | some i => some (i + 1)
    | none => if x = c then some 0 else none

/-- The `stripPath` function. -/
def stripPath (s : Text) : Text :=
  match rfind '/' s with
  | none => s
  | some i => s.drop (i + 1)

/-- One line of `writePSources`. -/
def pieceSourceLine (pre : Text) (i : Nat) : Text :=
  lit "<Piece Source=\"" ++ stripPath (getPieceFileName pre (Int.ofNat i)) ++ lit "\"/>\n"

/-- The `writePSources` function; `peers` is `PCU_Comm_Peers()`. -/
def writePSources (peers : Nat) (pre : Text) : Text :=
  forUpTo (pieceSourceLine pre) peers

/-- The name of the summary file opened by `writePvtuFile`. -/
def pvtuFileName (pre : Text) : Text := pre ++ lit ".pvtu"

/-- The `writePvtuFile` function: the content written to the summary file. -/
def writePvtuFile {D : Type} (peers : Nat) (pre : Text) (m : Mesh D) : Option Text := do
  let cellData ← writePCellData m
  pure (lit "<VTKFile type=\"PUnstructuredGrid\">\n" ++
    lit "<PUnstructuredGrid GhostLevel=\"0\">\n" ++
    writePPoints m.getCoordinateField ++
    writePPointData m ++
    cellData ++
    writePSources peers pre ++
    lit "</PUnstructuredGrid>\n" ++
    lit "</VTKFile>\n")

/-! ## Binary encoding -/

/-- Object representation of the unsigned value `v` in `w` bytes, in the byte
order of the machine (most significant byte first when `big`). -/
def nativeBytes (big : Bool) (w : Nat) (v : Nat) : List Nat :=
  let le := (List.range w).map (fun k => v / 256 ^ k % 256)
  if big then le.reverse else le

/-- The machine and library the writer runs on: its byte order and
`lion::base64Encode` (text of a byte buffer), which is declared in
`lionBase64.h` and taken as given. -/
structure Host where
  bigEndian : Bool
  base64Encode : List Nat → Text

/-- The `is_big_endian` function: the first byte in memory of the `unsigned int`
`0x01020304` is 1. -/
def is_big_endian (H : Host) : Bool :=
  (nativeBytes H.bigEndian 4 0x01020304).head? == some 1

/-- How an element type `T` is printed and stored: `operator<<`, `sizeof(T)` and
the bytes of a value in memory. -/
structure Scalar (T : Type) where
  fmt : T → Text
  sizeof : Nat
  bytes : T → List Nat

/-- The element type `int` (`w = 4`) or `long` (`w = 8`): decimal text and the
two's complement bytes in machine order. -/
def intScalar (H : Host) (w : Nat) : Scalar Int where
  fmt := showInt
  sizeof := w
  bytes := fun v => nativeBytes H.bigEndian w (v % (256 : Int) ^ w).toNat

/-! ## Piece file: arrays of nodal values -/

/-- The `writeDataHeader` function. -/
def writeDataHeader (name : Text) (type : ValueType) (size : Nat) (isWritingBinary : Bool) :
    Text :=
  lit "<DataArray " ++ describeArray name type size isWritingBinary ++ lit ">\n"

/-- One row of the ASCII branch of `writeNodalField`: the `nc` components of a
node, each followed by a blank, then a newline. -/
def nodalRow {T : Type} (S : Scalar T) (f : FieldBase T) (nd : Node) : Text :=
  forUpTo (fun j => S.fmt (f.getNodeComponents nd.entity nd.node j) ++ [' '])
    f.countComponents ++ ['\n']

/-- The ASCII branch of `writeNodalField`: one row per node of the node set. -/
def asciiPayload {T : Type} (S : Scalar T) (f : FieldBase T) (nodes : List Node) : Text :=
  forEach (nodalRow S f) nodes

/-- The inner loop of the binary branch: `dataToEncode[dataIndex++] = nodalData[j]`
for `j = 0 .. nc - 1`, appended to the elements stored so far. -/
def storeComponents {T : Type} (f : FieldBase T) (nd : Node) : Nat → List T → List T
  | 0, buf => buf
  | j + 1, buf => storeComponents f nd j buf ++ [f.getNodeComponents nd.entity nd.node j]

/-- The outer loop of the binary branch: the elements stored into `dataToEncode`,
in the order of `dataIndex`. -/
def fillBuffer {T : Type} (f : FieldBase T) : List Node → List T → List T
  | [], buf => buf
  | nd :: nds, buf => fillBuffer f nds (storeComponents f nd f.countComponents buf)

/-- The `unsigned int dataLen = nc * nodes.getSize()` of the binary branch. -/
def nodalDataLen {T : Type} (f : FieldBase T) (nodes : List Node) : Nat :=
  (f.countComponents * nodes.length) % 2 ^ 32

/-- The `unsigned int dataLenBytes = dataLen * sizeof(T)` of the binary branch. -/
def nodalDataLenBytes {T : Type} (S : Scalar T) (f : FieldBase T) (nodes : List Node) : Nat :=
  (nodalDataLen f nodes * S.sizeof) % 2 ^ 32

/-- The binary branch of `writeNodalField`: the encoded 4-byte length, then the
encoding of the first `dataLenBytes` bytes of the scratch buffer, then a
newline. -/
def binaryPayload {T : Type} (H : Host) (S : Scalar T) (f : FieldBase T) (nodes : List Node) :
    Text :=
  H.base64Encode (nativeBytes H.bigEndian 4 (nodalDataLenBytes S f nodes)) ++
    H.base64Encode (((fillBuffer f nodes []).flatMap S.bytes).take (nodalDataLenBytes S f nodes)) ++
    ['\n']

/-- The `writeNodalField<T>` function. -/
def writeNodalField {T : Type} (H : Host) (S : Scalar T) (f : FieldBase T) (nodes : List Node)
    (isWritingBinary : Bool) : Text :=
  writeDataHeader f.getName f.getScalarType f.countComponents isWritingBinary ++
    (if isWritingBinary then binaryPayload H S f nodes else asciiPayload S f nodes) ++
    lit "</DataArray>\n"

/-- The `writePoints` function. -/
def writePoints {D : Type} (H : Host) (SD : Scalar D) (m : Mesh D) (nodes : List Node)
    (isWritingBinary : Bool) : Text :=
  lit "<Points>\n" ++ writeNodalField H SD m.getCoordinateField nodes isWritingBinary ++
    lit "</Points>\n"

/-- The `writePointData` function: every array is written by `writeNodalField`
with its default `isWritingBinary = false`. -/
def writePointData {D : Type} (H : Host) (SD : Scalar D) (m : Mesh D) (nodes : List Node) :
    Text :=
  lit "<PointData>\n" ++
    forEach (fun f =>
        if isNodal m f && isPrintable m f then writeNodalField H SD f nodes false else [])
      m.fields ++
    forEach (fun (n : Numbering) =>
        if isNodal m n.toFieldBase && isPrintable m n.toFieldBase then
          writeNodalField H (intScalar H 4) n.toFieldBase nodes false
        else [])
      m.numberings ++
    forEach (fun n =>
        if isNodal m n && isPrintable m n then writeNodalField H (intScalar H 8) n nodes false
        else [])
      m.globalNumberings ++
    lit "</PointData>\n"

/-! ## Piece file: cells -/

/-- The `countElementNodes` function. -/
def countElementNodes {D : Type} (m : Mesh D) (n : Numbering) (e : MeshEntity) : Nat :=
  n.getShape.elementNodes (m.getType e)

/-- One row of `writeConnectivity`: the `nen` numbers of an element. -/
def connectivityRow {D : Type} (m : Mesh D) (n : Numbering) (e : MeshEntity) : Text :=
  forUpTo (fun i => showInt (n.getElementNumbers e i) ++ [' ']) (countElementNodes m n e) ++
    ['\n']

/-- The `writeConnectivity` function. -/
def writeConnectivity {D : Type} (m : Mesh D) (n : Numbering) : Text :=
  lit "<DataArray type=\"Int32\" Name=\"connectivity\" format=\"ascii\">\n" ++
    forEach (connectivityRow m n) (m.entities m.getDimension) ++
    lit "</DataArray>\n"

/-- The loop of `writeOffsets`: `o += countElementNodes(n, e); file << o << '\n';`
with `o` the running offset. -/
def offsetsLoop {D : Type} (m : Mesh D) (n : Numbering) : List MeshEntity → Nat → Text
  | [], _ => []
  | e :: es, o =>
    showNat (o + countElementNodes m n e) ++ ['\n'] ++
      offsetsLoop m n es (o + countElementNodes m n e)

/-- The `writeOffsets` function. -/
def writeOffsets {D : Type} (m : Mesh D) (n : Numbering) : Text :=
  lit "<DataArray type=\"Int32\" Name=\"offsets\" format=\"ascii\">\n" ++
    offsetsLoop m n (m.entities m.getDimension) 0 ++
    lit "</DataArray>\n"

/-- The `vtkTypes` table of `writeTypes`: one row per `Mesh::Type`, columns
linear and quadratic. -/
def vtkTypes : List (List Int) :=
  [[1, -1], [3, 21], [5, 22], [9, 23], [10, 24], [12, 25], [13, -1], [14, -1]]

/-- The table access `vtkTypes[type][order - 1]`; `none` when an index is outside
the table. -/
def vtkTypeAt (type : MeshType) (order : Int) : Option Int :=
  if order - 1 < 0 then none
  else (vtkTypes.get? type).bind (fun row => row.get? (order - 1).toNat)

/-- One row of `writeTypes`. -/
def typesRow {D : Type} (m : Mesh D) (e : MeshEntity) : Option Text :=
  (vtkTypeAt (m.getType e) m.getShape.getOrder).map (fun code => showInt code ++ ['\n'])

/-- The `writeTypes` function. -/
def writeTypes {D : Type} (m : Mesh D) : Option Text := do
  let rows ← forEachOpt (typesRow m) (m.entities m.getDimension)
  pure (lit "<DataArray type=\"UInt8\" Name=\"types\" format=\"ascii\">\n" ++ rows ++
    lit "</DataArray>\n")

/-- The `writeCells` function. -/
def writeCells {D : Type} (m : Mesh D) (n : Numbering) : Option Text := do
  let types ← writeTypes m
  pure (lit "<Cells>\n" ++ writeConnectivity m n ++ writeOffsets m n ++ types ++
    lit "</Cells>\n")

/-! ## Piece file: integration-point fields and cell data -/

/-- The state of a `WriteIPField` traversal: the member `entity` and the text
written to `*fp` since the traversal began. -/
structure IPState where
  entity : MeshEntity
  out : Text

/-- The `WriteIPField<T>` operation for one value of the member `point`:
`inEntity` records the entity and asks for its nodes; `atNode` writes the row of
the node whose index is `point` and ignores every other node. -/
def WriteIPField {T : Type} (S : Scalar T) (f : FieldBase T) (point : Nat) : FieldOp IPState where
  inEntity := fun s e => (IPState.mk e s.out, true)
  atNode := fun s node =>
    if node != point then s
    else
      IPState.mk s.entity
        (s.out ++
          forUpTo (fun i => S.fmt (f.getNodeComponents s.entity node i) ++ [' '])
            f.countComponents ++
          ['\n'])
  outEntity := fun s => s

/-- The `WriteIPField::runOnce` method for the current `point`. -/
def WriteIPField.runOnce {D T : Type} (S : Scalar T) (m : Mesh D) (f : FieldBase T)
    (point : Nat) : Text :=
  writeDataHeader (getIPName f point) f.getScalarType f.countComponents false ++
    ((WriteIPField S f point).apply m f (IPState.mk 0 [])).out ++
    lit "</DataArray>\n"

/-- The `WriteIPField::run` method. -/
def WriteIPField.run {D T : Type} (S : Scalar T) (m : Mesh D) (f : FieldBase T) :
    Option Text := do
  let n ← countIPs m f
  pure (forUpTo (WriteIPField.runOnce S m f) n)

/-- The `unsigned int dataLen = n` of `writeCellParts`, `n` the cell count. -/
def partsDataLen {D : Type} (m : Mesh D) : Nat := m.count m.getDimension % 2 ^ 32

/-- The `unsigned int dataLenBytes = dataLen * sizeof(int)` of `writeCellParts`. -/
def partsDataLenBytes {D : Type} (m : Mesh D) : Nat := (partsDataLen m * 4) % 2 ^ 32

/-- The `writeCellParts` function. -/
def writeCellParts {D : Type} (H : Host) (m : Mesh D) (isWritingBinary : Bool) : Text :=
  writeDataHeader (lit "apf_part") ValueType.INT 1 isWritingBinary ++
    (if isWritingBinary then
      H.base64Encode (nativeBytes H.bigEndian 4 (partsDataLenBytes m)) ++
        H.base64Encode
          (((List.replicate (m.count m.getDimension) m.getId).flatMap
            (intScalar H 4).bytes).take (partsDataLenBytes m)) ++
        lit "\n" ++ lit "</DataArray>\n"
    else
      forUpTo (fun _ => showInt m.getId ++ ['\n']) (m.count m.getDimension) ++
        lit "</DataArray>\n")

/-- The `writeCellData` function. -/
def writeCellData {D : Type} (H : Host) (SD : Scalar D) (m : Mesh D) (isWritingBinary : Bool) :
    Option Text := do
  let a ← forEachOpt
    (fun f => if isIP m f && isPrintable m f then WriteIPField.run SD m f else some [])
    m.fields
  let b ← forEachOpt
    (fun (n : Numbering) =>
      if isIP m n.toFieldBase && isPrintable m n.toFieldBase then
        WriteIPField.run (intScalar H 4) m n.toFieldBase
      else some [])
    m.numberings
  let c ← forEachOpt
    (fun n =>
      if isIP m n && isPrintable m n then WriteIPField.run (intScalar H 8) m n else some [])
    m.globalNumberings
  pure (lit "<CellData>\n" ++ a ++ b ++ c ++ writeCellParts H m isWritingBinary ++
    lit "</CellData>\n")

/-! ## Piece file -/

/-- The opening `<VTKFile ...>` line of `writeVtuFile`. -/
def vtuOpening (H : Host) (isWritingBinary : Bool) : Text :=
  lit "<VTKFile type=\"UnstructuredGrid\"" ++
    (if isWritingBinary then
      lit " byte_order=" ++
        (if is_big_endian H then lit "\"BigEndian\"" else lit "\"LittleEndian\"") ++
        lit " header_type=\"UInt32\""
    else []) ++
    lit ">\n"

/-- The `<Piece ...>` line of `writeVtuFile`. -/
def pieceLine {D : Type} (m : Mesh D) (nodes : List Node) : Text :=
  lit "<Piece NumberOfPoints=\"" ++ showNat nodes.length ++
    lit "\" NumberOfCells=\"" ++ showNat (m.count m.getDimension) ++ lit "\">\n"

/-- The `writeVtuFile` function: the content of the buffer `buf` that is flushed
to the piece file.  `writePoints` and `writePointData` are called without the
binary flag (its default is `false`); `writeCellData` receives it. -/
def writeVtuFile {D : Type} (H : Host) (SD : Scalar D) (m : Mesh D) (n : Numbering)
    (isWritingBinary : Bool) : Option Text := do
  let cells ← writeCells m n
  let cellData ← writeCellData H SD m isWritingBinary
  pure (vtuOpening H isWritingBinary ++
    lit "<UnstructuredGrid>\n" ++
    pieceLine m n.getNodes ++
    writePoints H SD m n.getNodes false ++
    cells ++
    writePointData H SD m n.getNodes ++
    cellData ++
    lit "</Piece>\n" ++
    lit "</UnstructuredGrid>\n" ++
    lit "</VTKFile>\n")

/-! ## Parallel coordinator -/

/-- The communication layer as seen by one partition: `PCU_Comm_Self()` and
`PCU_Comm_Peers()`. -/
structure Comm where
  self : Nat
  peers : Nat

/-- What one partition does during a write, in program order.  The reads of the
timer and the leader's `printf` of the elapsed times are diagnostics and are left
out. -/
inductive Event where
  | barrier
  | numberOverlapNodes
  | serialize (content : Text)
  | writeSummary (name : Text) (content : Text)
  | flushPiece (name : Text) (content : Text)
  deriving DecidableEq

/-- The content of a file an event writes to disk, if it writes one. -/
def Event.fileContent : Event → Option Text
  | Event.writeSummary _ c => some c
  | Event.flushPiece _ c => some c
  | _ => none

/-- The name of the file an event writes to disk, if it writes one. -/
def Event.fileName : Event → Option Text
  | Event.writeSummary name _ => some name
  | Event.flushPiece name _ => some name
  | _ => none

/-- The run of `writePvtuFile`: the summary file `prefix.pvtu` is opened and
written. -/
def writePvtuFileEvents {D : Type} (C : Comm) (pre : Text) (m : Mesh D) :
    Option (List Event) := do
  let content ← writePvtuFile C.peers pre m
  pure [Event.writeSummary (pvtuFileName pre) content]

/-- The run of `writeVtuFile`: `PCU_Barrier()`, the piece is serialised into
`buf`, `PCU_Barrier()`, `buf` is written to the file `getPieceFileName(prefix,
PCU_Comm_Self())`, `PCU_Barrier()`. -/
def writeVtuFileEvents {D : Type} (H : Host) (SD : Scalar D) (C : Comm) (pre : Text)
    (m : Mesh D) (n : Numbering) (isWritingBinary : Bool) : Option (List Event) := do
  let buf ← writeVtuFile H SD m n isWritingBinary
  pure [Event.barrier, Event.serialize buf, Event.barrier,
    Event.flushPiece (getPieceFileName pre (Int.ofNat C.self)) buf, Event.barrier]

/-- The `writeVtkFiles` function.  `n` is the numbering that
`numberOverlapNodes(m, "apf_vtk_number")` builds; it is removed from the mesh
again before the piece is written, so the registered numberings of `m` are the
same throughout. -/
def writeVtkFiles {D : Type} (H : Host) (SD : Scalar D) (C : Comm) (pre : Text)
    (m : Mesh D) (n : Numbering) : Option (List Event) := do
  let summary ← if C.self = 0 then writePvtuFileEvents C pre m else some []
  let piece ← writeVtuFileEvents H SD C pre m n false
  pure (summary ++ [Event.numberOverlapNodes] ++ piece)

/-- The `writeOneVtkFile` function. -/
def writeOneVtkFile {D : Type} (H : Host) (SD : Scalar D) (C : Comm) (pre : Text)
    (m : Mesh D) (n : Numbering) : Option (List Event) := do
  let piece ← writeVtuFileEvents H SD C pre m n false
  pure ([Event.numberOverlapNodes] ++ piece)

/-- The `writeBinaryInlineVtkFiles` function. -/
def writeBinaryInlineVtkFiles {D : Type} (H : Host) (SD : Scalar D) (C : Comm) (pre : Text)
    (m : Mesh D) (n : Numbering) : Option (List Event) := do
  let summary ← if C.self = 0 then writePvtuFileEvents C pre m else some []
  let piece ← writeVtuFileEvents H SD C pre m n true
  pure (summary ++ [Event.numberOverlapNodes] ++ piece)

/-- The sequence of coordination events the specification gives for the full
write on the leader: barrier, summary write, numbering, serialisation, barrier,
flush, barrier. -/
def specFullWriteLeader (pre : Text) (rank : Nat) (summary buf : Text) : List Event :=
  [Event.barrier, Event.writeSummary (pvtuFileName pre) summary, Event.numberOverlapNodes,
    Event.serialize buf, Event.barrier,
    Event.flushPiece (getPieceFileName pre (Int.ofNat rank)) buf, Event.barrier]

/-! ## Views used in the statements -/

/-- The text of one ASCII array of nodal values. -/
def asciiArray {T : Type} (S : Scalar T) (f : FieldBase T) (nodes : List Node) : Text :=
  writeDataHeader f.getName f.getScalarType f.countComponents false ++
    asciiPayload S f nodes ++ lit "</DataArray>\n"

/-- One row of an integration-point array: the components of entity `e` at
point `p`, each followed by a blank, then a newline. -/
def ipRow {T : Type} (S : Scalar T) (f : FieldBase T) (p : Nat) (e : MeshEntity) : Text :=
  forUpTo (fun i => S.fmt (f.getNodeComponents e p i) ++ [' ']) f.countComponents ++ ['\n']

/-- The array the specification describes for point `p` of an integration-point
field: named `name_<p+1>`, one row per top-dimension entity in mesh order. -/
def ipArray {D T : Type} (S : Scalar T) (m : Mesh D) (f : FieldBase T) (p : Nat) : Text :=
  writeDataHeader (f.getName ++ ['_'] ++ showNat (p + 1)) f.getScalarType f.countComponents
      false ++
    forEach (ipRow S f p) (m.entities m.getDimension) ++
    lit "</DataArray>\n"

/-- The arrays the specification describes for an integration-point field with
`n` points: the arrays of points `0 .. n - 1` in that order. -/
def ipArrays {D T : Type} (S : Scalar T) (m : Mesh D) (f : FieldBase T) (n : Nat) : Text :=
  forUpTo (ipArray S m f) n

/-- The linear column of the specification's fixed type table. -/
def linearCode : MeshType → Int
  | 0 => 1
  | 1 => 3
  | 2 => 5
  | 3 => 9
  | 4 => 10
  | 5 => 12
  | 6 => 13
  | _ => 14

/-- The quadratic column of the specification's fixed type table; `-1` where
the specification has a dash (vertex, prism, pyramid). -/
def quadraticCode : MeshType → Int
  | 1 => 21
  | 2 => 22
  | 3 => 23
  | 4 => 24
  | 5 => 25
  | _ => -1

/-- The code of the specification's table for a type and an order in {1, 2}. -/
def tableCode (type : MeshType) (order : Int) : Int :=
  if order = 1 then linearCode type else quadraticCode type

/-- The value of a list of decimal digits, least significant first. -/
def ofDigitsLE : List Nat → Nat
  | [] => 0
  | d :: ds => d + 10 * ofDigitsLE ds

/-- The piece file an event flushes: its name and content. -/
def Event.flushed : Event → Option (Text × Text)
  | Event.flushPiece name c => some (name, c)
  | _ => none

/-- The 64 characters of the base64 alphabet, in value order. -/
def base64Alphabet : Text :=
  lit "ABCDEFGHIJKLMNOPQRSTUVWXYZabcdefghijklmnopqrstuvwxyz0123456789+/"

/-- The base64 character of a 6-bit value. -/
def b64Char (v : Nat) : Char := base64Alphabet.getD v 'A'

/-- Modelled from the spec: `lion::base64Encode`, declared in `lionBase64.h`, is
not among the sources.  It produces the base64 text representation of a raw byte
buffer: every three bytes give four characters of the alphabet, and a last group
of one or two bytes is padded with `=`. -/
def base64Encode : List Nat → Text
  | [] => []
  | [a] => [b64Char (a / 4), b64Char (a % 4 * 16), '=', '=']
  | [a, b] => [b64Char (a / 4), b64Char (a % 4 * 16 + b / 16), b64Char (b % 16 * 4), '=']
  | a :: b :: c :: rest =>
    b64Char (a / 4) :: b64Char (a % 4 * 16 + b / 16) :: b64Char (b % 16 * 4 + c / 64) ::
      b64Char (c % 64) :: base64Encode rest

/-- The text of the encoded scratch buffer in the binary payload of
`writeNodalField`. -/
def nodalPayloadText {T : Type} (H : Host) (S : Scalar T) (f : FieldBase T) (nodes : List Node) :
    Text :=
  H.base64Encode (((fillBuffer f nodes []).flatMap S.bytes).take (nodalDataLenBytes S f nodes))

/-- The text of the encoded length that opens the binary payload of
`writeCellParts`. -/
def partsPrefixText {D : Type} (H : Host) (m : Mesh D) : Text :=
  H.base64Encode (nativeBytes H.bigEndian 4 (partsDataLenBytes m))

/-- The text of the encoded scratch buffer in the binary payload of
`writeCellParts`. -/
def partsPayloadText {D : Type} (H : Host) (m : Mesh D) : Text :=
  H.base64Encode
    (((List.replicate (m.count m.getDimension) m.getId).flatMap (intScalar H 4).bytes).take
      (partsDataLenBytes m))

/-- The bytes of a buffer written to the stream as they are, one character per
byte. -/
def rawBytesText (bs : List Nat) : Text := bs.map Char.ofNat

/-- What an array declares about itself: name, scalar type tag, component
count. -/
structure ArrayDecl where
  name : Text
  type : ValueType
  components : Nat
  deriving DecidableEq

/-- The declaration of the array of a field-like object. -/
def declOf {T : Type} (f : FieldBase T) : ArrayDecl :=
  ArrayDecl.mk f.getName f.getScalarType f.countComponents

/-- The line that declares an array in the summary file. -/
def declareArray (d : ArrayDecl) : Text := writePDataArray d.name d.type d.components

/-- The text of an ASCII array in the piece file: header, payload, closing tag. -/
def emitArray (a : ArrayDecl × Text) : Text :=
  writeDataHeader a.1.name a.1.type a.1.components false ++ a.2 ++ lit "</DataArray>\n"

/-- The point arrays in the order of the specification: all nodal, printable
value fields in registration order, then numberings, then global numberings. -/
def pointDecls {D : Type} (m : Mesh D) : List ArrayDecl :=
  (m.fields.filter (fun f => isNodal m f && isPrintable m f)).map declOf ++
    (m.numberings.filter
      (fun k => isNodal m k.toFieldBase && isPrintable m k.toFieldBase)).map
      (fun k => declOf k.toFieldBase) ++
    (m.globalNumberings.filter (fun g => isNodal m g && isPrintable m g)).map declOf

/-- The point arrays of the ASCII piece with their payloads, in the same order. -/
def pointArrays {D : Type} (H : Host) (SD : Scalar D) (m : Mesh D) (nodes : List Node) :
    List (ArrayDecl × Text) :=
  (m.fields.filter (fun f => isNodal m f && isPrintable m f)).map
      (fun f => (declOf f, asciiPayload SD f nodes)) ++
    (m.numberings.filter
      (fun k => isNodal m k.toFieldBase && isPrintable m k.toFieldBase)).map
      (fun k => (declOf k.toFieldBase, asciiPayload (intScalar H 4) k.toFieldBase nodes)) ++
    (m.globalNumberings.filter (fun g => isNodal m g && isPrintable m g)).map
      (fun g => (declOf g, asciiPayload (intScalar H 8) g nodes))

/-- Like `forEachOpt`, collecting list items instead of text. -/
def collectOpt {α β : Type} (body : α → Option (List β)) : List α → Option (List β)
  | [] => some []
  | x :: xs => do
    let t ← body x
    let rest ← collectOpt body xs
    pure (t ++ rest)

/-- The arrays of an integration-point object with `n` points: `name_1`, ...,
`name_n`. -/
def ipDecls {T : Type} (f : FieldBase T) (n : Nat) : List ArrayDecl :=
  (List.range n).map
    (fun p => ArrayDecl.mk (getIPName f p) f.getScalarType f.countComponents)

/-- The arrays of an integration-point object in the ASCII piece, with the
payload the traversal writes for each point. -/
def ipArraysOf {D T : Type} (S : Scalar T) (m : Mesh D) (f : FieldBase T) (n : Nat) :
    List (ArrayDecl × Text) :=
  (List.range n).map
    (fun p => (ArrayDecl.mk (getIPName f p) f.getScalarType f.countComponents,
      ((WriteIPField S f p).apply m f (IPState.mk 0 [])).out))

/-- The cell arrays in the order of the specification: the arrays of every
printable integration-point value field, numbering and global numbering, then
`apf_part`. -/
def cellDecls {D : Type} (m : Mesh D) : Option (List ArrayDecl) := do
  let a ← collectOpt
    (fun f => if isIP m f && isPrintable m f then (countIPs m f).map (ipDecls f) else some [])
    m.fields
  let b ← collectOpt
    (fun (k : Numbering) =>
      if isIP m k.toFieldBase && isPrintable m k.toFieldBase then
        (countIPs m k.toFieldBase).map (ipDecls k.toFieldBase)
      else some [])
    m.numberings
  let c ← collectOpt
    (fun g => if isIP m g && isPrintable m g then (countIPs m g).map (ipDecls g) else some [])
    m.globalNumberings
  pure (a ++ b ++ c ++ [ArrayDecl.mk (lit "apf_part") ValueType.INT 1])

/-- The cell arrays of the ASCII piece with their payloads, in the same order. -/
def cellArrays {D : Type} (H : Host) (SD : Scalar D) (m : Mesh D) :
    Option (List (ArrayDecl × Text)) := do
  let a ← collectOpt
    (fun f =>
      if isIP m f && isPrintable m f then (countIPs m f).map (ipArraysOf SD m f) else some [])
    m.fields
  let b ← collectOpt
    (fun (k : Numbering) =>
      if isIP m k.toFieldBase && isPrintable m k.toFieldBase then
        (countIPs m k.toFieldBase).map (ipArraysOf (intScalar H 4) m k.toFieldBase)
      else some [])
    m.numberings
  let c ← collectOpt
    (fun g =>
      if isIP m g && isPrintable m g then
        (countIPs m g).map (ipArraysOf (intScalar H 8) m g)
      else some [])
    m.globalNumberings
  pure (a ++ b ++ c ++
    [(ArrayDecl.mk (lit "apf_part") ValueType.INT 1,
      forUpTo (fun _ => showInt m.getId ++ ['\n']) (m.count m.getDimension))])

/-! ## Example data -/

/-- A shape with nodes on vertices only: a linear nodal shape (object 1). -/
def exLinearShape : FieldShape where
  addr := 1
  hasNodesIn := fun d => d == 0
  countNodesOn := fun t => if t == 0 then 1 else 0
  elementNodes := fun t => if t == 2 then 3 else if t == 3 then 4 else 1
  getOrder := 1

/-- An integration-point shape on faces (object 2): 1 point on a triangle
(type 2), 2 points on a quadrilateral (type 3). -/
def exIPShape : FieldShape where
  addr := 2
  hasNodesIn := fun d => d == 2
  countNodesOn := fun t => if t == 2 then 1 else if t == 3 then 2 else 0
  elementNodes := fun _ => 0
  getOrder := 1

/-- Printing and storing of small integers standing for `double` values. -/
def exScalar : Scalar Int where
  fmt := showInt
  sizeof := 8
  bytes := fun v => nativeBytes false 8 (v % (256 : Int) ^ 8).toNat

/-- A little-endian machine with a placeholder encoder writing one letter per
byte. -/
def exHost : Host where
  bigEndian := false
  base64Encode := fun bs => bs.map (fun b => Char.ofNat (65 + b % 26))

/-- Coordinates of the example mesh: vertex `e`, component `j`. -/
def exCoords : FieldBase Int where
  getName := lit "coordinates"
  getScalarType := ValueType.DOUBLE
  countComponents := 3
  getShape := exLinearShape
  hasEntity := fun _ => true
  getNodeComponents := fun e _ j => Int.ofNat (10 * e + j)

/-- A nodal field with data on every vertex. -/
def exFull : FieldBase Int where
  getName := lit "u"
  getScalarType := ValueType.DOUBLE
  countComponents := 2
  getShape := exLinearShape
  hasEntity := fun _ => true
  getNodeComponents := fun e _ j => Int.ofNat (e + j)

/-- A nodal field without data on vertex 3. -/
def exPartial : FieldBase Int where
  getName := lit "p"
  getScalarType := ValueType.DOUBLE
  countComponents := 1
  getShape := exLinearShape
  hasEntity := fun e => e != 3
  getNodeComponents := fun e _ _ => Int.ofNat e

/-- An integration-point field with data everywhere. -/
def exIPField : FieldBase Int where
  getName := lit "s"
  getScalarType := ValueType.DOUBLE
  countComponents := 1
  getShape := exIPShape
  hasEntity := fun _ => true
  getNodeComponents := fun e node _ => Int.ofNat (100 * e + node)

/-- The overlap numbering of the example mesh: vertices 1..4 are numbered 0..3;
element 10 is the triangle 1-2-3 and element 11 the quadrilateral 1-2-3-4. -/
def exNumbering : Numbering where
  getName := lit "apf_vtk_number"
  getScalarType := ValueType.INT
  countComponents := 1
  getShape := exLinearShape
  hasEntity := fun _ => true
  getNodeComponents := fun e _ _ => Int.ofNat e - 1
  getElementNumbers := fun _ i => Int.ofNat i
  getNodes := [Node.mk 1 0, Node.mk 2 0, Node.mk 3 0, Node.mk 4 0]

/-- A two-dimensional example mesh: vertices 1..4 and the given cells in
iteration order, with the given registered value fields.  Entity 11 is a
quadrilateral, every other entity from 10 on is a triangle. -/
def exMesh (cells : List MeshEntity) (fields : List (FieldBase Int)) : Mesh Int where
  getDimension := 2
  getShape := exLinearShape
  entities := fun d => if d == 0 then [1, 2, 3, 4] else if d == 2 then cells else []
  getType := fun e => if e == 11 then 3 else if 10 ≤ e then 2 else 0
  getId := 0
  getCoordinateField := exCoords
  fields := fields
  numberings := []
  globalNumberings := []

/-- A quadratic shape (object 3, order 2). -/
def exQuadraticShape : FieldShape where
  addr := 3
  hasNodesIn := fun d => d == 0 || d == 1
  countNodesOn := fun t => if t == 0 || t == 1 then 1 else 0
  elementNodes := fun t => if t == 6 then 18 else 10
  getOrder := 2

/-- A three-dimensional mesh of quadratic order whose only cell, entity 20, is a
prism (type 6). -/
def exPrismMesh : Mesh Int where
  getDimension := 3
  getShape := exQuadraticShape
  entities := fun d => if d == 3 then [20] else []
  getType := fun e => if e == 20 then 6 else 0
  getId := 0
  getCoordinateField := exCoords
  fields := []
  numberings := []
  globalNumberings := []

/-- The leader of a two-partition run. -/
def exLeader : Comm where
  self := 0
  peers := 2

/-- A two-dimensional mesh part without any entity, with the given registered
value fields. -/
def exEmptyMesh (fields : List (FieldBase Int)) : Mesh Int where
  getDimension := 2
  getShape := exLinearShape
  entities := fun _ => []
  getType := fun _ => 0
  getId := 1
  getCoordinateField := exCoords
  fields := fields
  numberings := []
  globalNumberings := []

/-- The overlap numbering of the empty mesh part: no nodes. -/
def exEmptyNumbering : Numbering where
  getName := lit "apf_vtk_number"
  getScalarType := ValueType.INT
  countComponents := 1
  getShape := exLinearShape
  hasEntity := fun _ => true
  getNodeComponents := fun _ _ _ => 0
  getElementNumbers := fun _ _ => 0
  getNodes := []

/-- A little-endian machine with the base64 encoder. -/
def stdHost : Host where
  bigEndian := false
  base64Encode := base64Encode

/-- A node set of five nodes. -/
def exFiveNodes : List Node :=
  [Node.mk 1 0, Node.mk 2 0, Node.mk 3 0, Node.mk 4 0, Node.mk 1 0]

/-- A nodal field with zero components. -/
def exZeroComp : FieldBase Int where
  getName := lit "z"
  getScalarType := ValueType.DOUBLE
  countComponents := 0
  getShape := exLinearShape
  hasEntity := fun _ => true
  getNodeComponents := fun _ _ _ => 0

/-! ## Lemmas on loops and text -/

theorem forEach_append {α : Type} (body : α → Text) (xs ys : List α) :
    forEach body (xs ++ ys) = forEach body xs ++ forEach body ys := by
  induction xs with
  | nil => rfl
  | cons x xs ih => simp [forEach, ih]

theorem forEach_filter {α : Type} (body : α → Text) (p : α → Bool) (xs : List α) :
    forEach (fun x => if p x then body x else []) xs = forEach body (xs.filter p) := by
  induction xs with
  | nil => rfl
  | cons x xs ih =>
    cases hp : p x <;> simp [forEach, List.filter, hp, ih]

theorem forEach_congr {α : Type} (f g : α → Text) (xs : List α)
    (h : ∀ x ∈ xs, f x = g x) : forEach f xs = forEach g xs := by
  induction xs with
  | nil => rfl
  | cons x xs ih =>
    simp only [forEach]
    rw [h x (List.mem_cons_self _ _), ih (fun y hy => h y (List.mem_cons_of_mem _ hy))]

theorem countRows_append (a b : Text) : countRows (a ++ b) = countRows a + countRows b := by
  simp [countRows, List.count_append]

theorem countRows_forEach {α : Type} (body : α → Text) (xs : List α) (k : Nat)
    (h : ∀ x ∈ xs, countRows (body x) = k) : countRows (forEach body xs) = xs.length * k := by
  induction xs with
  | nil => simp [forEach, countRows]
  | cons x xs ih =>
    simp only [forEach, countRows_append, List.length_cons]
    rw [h x (List.mem_cons_self _ _), ih (fun y hy => h y (List.mem_cons_of_mem _ hy))]
    ring

theorem countRows_forUpTo_zero (body : Nat → Text) (n : Nat)
    (h : ∀ i, countRows (body i) = 0) : countRows (forUpTo body n) = 0 := by
  induction n with
  | zero => simp [forUpTo, countRows]
  | succ n ih => simp [forUpTo, countRows_append, ih, h]

/-! ## Classifier: `isIP` and `isPrintable` -/

theorem isIPLoop_iff (s : FieldShape) (d : Nat) (k i : Nat) :
    isIPLoop s d k i = true ↔
      (∀ j, i ≤ j → j < i + k → s.hasNodesIn j = false) ∧ s.hasNodesIn d = true := by
  induction k generalizing i with
  | zero =>
    simp only [isIPLoop]
    constructor
    · intro h
      exact ⟨fun j h1 h2 => absurd h2 (by omega), h⟩
    · exact fun h => h.2
  | succ k ih =>
    simp only [isIPLoop]
    cases hi : s.hasNodesIn i
    · simp only [Bool.false_eq_true, if_false]
      rw [ih (i + 1)]
      constructor
      · rintro ⟨h1, h2⟩
        refine ⟨fun j hj1 hj2 => ?_, h2⟩
        by_cases hji : j = i
        · rw [hji]; exact hi
        · exact h1 j (by omega) (by omega)
      · rintro ⟨h1, h2⟩
        exact ⟨fun j hj1 hj2 => h1 j (by omega) (by omega), h2⟩
    · simp only [if_true]
      constructor
      · intro h; exact absurd h (by simp)
      · rintro ⟨h1, _⟩
        have := h1 i (le_refl _) (by omega)
        rw [hi] at this
        exact absurd this (by simp)

/-- C3: on a mesh of dimension `d` (0 included), `isIP(f)` is true exactly when
the shape of `f` has no nodes in any dimension below `d` and has nodes in
dimension `d`. -/
theorem isIP_iff {D T : Type} (m : Mesh D) (f : FieldBase T) :
    isIP m f = true ↔
      (∀ i, i < m.getDimension → f.getShape.hasNodesIn i = false) ∧
        f.getShape.hasNodesIn m.getDimension = true := by
  unfold isIP
  rw [isIPLoop_iff]
  constructor
  · rintro ⟨h1, h2⟩
    exact ⟨fun i hi => h1 i (Nat.zero_le _) (by omega), h2⟩
  · rintro ⟨h1, h2⟩
    exact ⟨fun j _ hj => h1 j (by omega), h2⟩

theorem HasAll_entityLoop {T : Type} (f : FieldBase T) (nodesOn : MeshEntity → Nat)
    (es : List MeshEntity) (ok : Bool) :
    FieldOp.entityLoop (HasAll f) nodesOn es ok = (ok && es.all f.hasEntity) := by
  induction es generalizing ok with
  | nil => simp [FieldOp.entityLoop]
  | cons e es ih =>
    have h1 : ((HasAll f).inEntity ok e).2 = false := rfl
    have h2 : ((HasAll f).inEntity ok e).1 = (if !f.hasEntity e then false else ok) := rfl
    simp only [FieldOp.entityLoop, List.all_cons, h1, Bool.false_eq_true, if_false]
    rw [ih, h2]
    cases f.hasEntity e <;> cases ok <;> simp

theorem HasAll_dimLoop {D T : Type} (m : Mesh D) (f : FieldBase T) (ds : List Nat) (ok : Bool) :
    FieldOp.dimLoop (HasAll f) m f ds ok =
      (ok && ((ds.filter (fun d => f.getShape.hasNodesIn d)).flatMap m.entities).all
        f.hasEntity) := by
  induction ds generalizing ok with
  | nil => simp [FieldOp.dimLoop]
  | cons d ds ih =>
    simp only [FieldOp.dimLoop]
    cases hd : f.getShape.hasNodesIn d
    · simp only [Bool.false_eq_true, if_false]
      rw [ih]
      simp [List.filter, hd]
    · simp only [if_true]
      rw [ih, HasAll_entityLoop]
      simp [List.filter, hd, List.flatMap_cons, List.all_append, Bool.and_assoc]

theorem isPrintable_eq_all {D T : Type} (m : Mesh D) (f : FieldBase T) :
    isPrintable m f = (visited m f).all f.hasEntity := by
  unfold isPrintable HasAll.run FieldOp.apply visited
  rw [HasAll_dimLoop]
  simp

theorem isPrintable_iff {D T : Type} (m : Mesh D) (f : FieldBase T) :
    isPrintable m f = true ↔ ∀ e ∈ visited m f, f.hasEntity e = true := by
  rw [isPrintable_eq_all, List.all_eq_true]

theorem isPrintable_false_of_missing {D T : Type} (m : Mesh D) (f : FieldBase T)
    (e : MeshEntity) (he : e ∈ visited m f) (hmiss : f.hasEntity e = false) :
    isPrintable m f = false := by
  cases h : isPrintable m f
  · rfl
  · have := (isPrintable_iff m f).1 h e he
    rw [hmiss] at this
    exact absurd this (by simp)

theorem forEach_skip {α : Type} (body : α → Text) (pre post : List α) (x : α)
    (hx : body x = []) : forEach body (pre ++ x :: post) = forEach body (pre ++ post) := by
  simp [forEach_append, forEach, hx]

/-- C2: `isPrintable(f)` is true exactly when every entity visited by the
coverage traversal has data; and when a visited entity has no data for a value
field, numbering or global numbering `f`, `isPrintable(f)` is false and both
`writePPointData` and `writePointData` produce the same text as for the mesh
with `f` unregistered (`f` removed from its list). -/
theorem unprintable_field_absent {D : Type} (H : Host) (SD : Scalar D) (m : Mesh D)
    (nodes : List Node) :
    (∀ (T : Type) (f : FieldBase T),
      (isPrintable m f = true ↔ ∀ e ∈ visited m f, f.hasEntity e = true)) ∧
    (∀ (f : FieldBase D) (pre post : List (FieldBase D)),
      m.fields = pre ++ f :: post → (∃ e ∈ visited m f, f.hasEntity e = false) →
        isPrintable m f = false ∧
        writePPointData m = writePPointData { m with fields := pre ++ post } ∧
        writePointData H SD m nodes =
          writePointData H SD { m with fields := pre ++ post } nodes) ∧
    (∀ (f : Numbering) (pre post : List Numbering),
      m.numberings = pre ++ f :: post →
        (∃ e ∈ visited m f.toFieldBase, f.hasEntity e = false) →
        isPrintable m f.toFieldBase = false ∧
        writePPointData m = writePPointData { m with numberings := pre ++ post } ∧
        writePointData H SD m nodes =
          writePointData H SD { m with numberings := pre ++ post } nodes) ∧
    (∀ (f : FieldBase Int) (pre post : List (FieldBase Int)),
      m.globalNumberings = pre ++ f :: post →
        (∃ e ∈ visited m f, f.hasEntity e = false) →
        isPrintable m f = false ∧
        writePPointData m = writePPointData { m with globalNumberings := pre ++ post } ∧
        writePointData H SD m nodes =
          writePointData H SD { m with globalNumberings := pre ++ post } nodes) := by
  refine ⟨fun T f => isPrintable_iff m f, ?_, ?_, ?_⟩
  · rintro f pre post hm ⟨e, he, hmiss⟩
    have hp := isPrintable_false_of_missing m f e he hmiss
    refine ⟨hp, ?_, ?_⟩
    · unfold writePPointData
      rw [hm]
      have := forEach_skip
        (fun f => if isNodal m f && isPrintable m f then writePDataArrayOf f else [])
        pre post f (by simp [hp])
      rw [this]
      rfl
    · unfold writePointData
      rw [hm]
      have := forEach_skip
        (fun f =>
          if isNodal m f && isPrintable m f then writeNodalField H SD f nodes false else [])
        pre post f (by simp [hp])
      rw [this]
      rfl
  · rintro f pre post hm ⟨e, he, hmiss⟩
    have hp := isPrintable_false_of_missing m f.toFieldBase e he hmiss
    refine ⟨hp, ?_, ?_⟩
    · unfold writePPointData
      rw [hm]
      have := forEach_skip
        (fun (n : Numbering) =>
          if isNodal m n.toFieldBase && isPrintable m n.toFieldBase then
            writePDataArrayOf n.toFieldBase
          else [])
        pre post f (by simp [hp])
      rw [this]
      rfl
    · unfold writePointData
      rw [hm]
      have := forEach_skip
        (fun (n : Numbering) =>
          if isNodal m n.toFieldBase && isPrintable m n.toFieldBase then
            writeNodalField H (intScalar H 4) n.toFieldBase nodes false
          else [])
        pre post f (by simp [hp])
      rw [this]
      rfl
  · rintro f pre post hm ⟨e, he, hmiss⟩
    have hp := isPrintable_false_of_missing m f e he hmiss
    refine ⟨hp, ?_, ?_⟩
    · unfold writePPointData
      rw [hm]
      have := forEach_skip
        (fun f => if isNodal m f && isPrintable m f then writePDataArrayOf f else [])
        pre post f (by simp [hp])
      rw [this]
      rfl
    · unfold writePointData
      rw [hm]
      have := forEach_skip
        (fun f =>
          if isNodal m f && isPrintable m f then writeNodalField H (intScalar H 8) f nodes false
          else [])
        pre post f (by simp [hp])
      rw [this]
      rfl

theorem unprintable_field_absent_witness :
    isPrintable (exMesh [11, 10] [exFull, exPartial]) exPartial = false ∧
    writePPointData (exMesh [11, 10] [exFull, exPartial]) =
      writePPointData { exMesh [11, 10] [exFull, exPartial] with fields := [exFull] } ∧
    writePointData exHost exScalar (exMesh [11, 10] [exFull, exPartial]) exNumbering.getNodes =
      writePointData exHost exScalar { exMesh [11, 10] [exFull, exPartial] with fields := [exFull] }
        exNumbering.getNodes :=
  (unprintable_field_absent exHost exScalar (exMesh [11, 10] [exFull, exPartial])
    exNumbering.getNodes).2.1 exPartial [exFull] [] rfl ⟨3, by decide, by decide⟩

/-! ## Point arrays of the piece file -/

theorem digitChar_mem (d : Nat) : digitChar d ∈ ['0', '1', '2', '3', '4', '5', '6', '7', '8', '9'] := by
  unfold digitChar
  split <;> simp

theorem showNat_chars (n : Nat) (c : Char) (hc : c ∈ showNat n) :
    c ∈ ['0', '1', '2', '3', '4', '5', '6', '7', '8', '9'] := by
  unfold showNat at hc
  rw [List.mem_map] at hc
  obtain ⟨d, _, rfl⟩ := hc
  exact digitChar_mem d

theorem showInt_chars (v : Int) (c : Char) (hc : c ∈ showInt v) :
    c ∈ ['-', '0', '1', '2', '3', '4', '5', '6', '7', '8', '9'] := by
  cases v with
  | ofNat n => exact List.mem_cons_of_mem _ (showNat_chars n c hc)
  | negSucc n =>
    simp only [showInt, List.mem_cons] at hc
    rcases hc with rfl | hc
    · simp
    · exact List.mem_cons_of_mem _ (showNat_chars _ c hc)

theorem showInt_no_newline (v : Int) : '\n' ∉ showInt v := by
  intro h
  have := showInt_chars v _ h
  revert this
  decide

theorem countRows_eq_zero (t : Text) (h : '\n' ∉ t) : countRows t = 0 := by
  unfold countRows
  exact List.count_eq_zero.2 h

theorem countRows_nodalRow {T : Type} (S : Scalar T) (f : FieldBase T) (nd : Node)
    (hfmt : ∀ v, '\n' ∉ S.fmt v) : countRows (nodalRow S f nd) = 1 := by
  unfold nodalRow
  rw [countRows_append, countRows_forUpTo_zero]
  · rfl
  · intro i
    rw [countRows_append, countRows_eq_zero _ (hfmt _)]
    rfl

theorem countRows_asciiPayload {T : Type} (S : Scalar T) (f : FieldBase T) (nodes : List Node)
    (hfmt : ∀ v, '\n' ∉ S.fmt v) : countRows (asciiPayload S f nodes) = nodes.length := by
  unfold asciiPayload
  rw [countRows_forEach _ _ 1 (fun nd _ => countRows_nodalRow S f nd hfmt)]
  simp

theorem writeNodalField_ascii {T : Type} (H : Host) (S : Scalar T) (f : FieldBase T)
    (nodes : List Node) : writeNodalField H S f nodes false = asciiArray S f nodes := by
  simp [writeNodalField, asciiArray]

theorem writePointData_eq {D : Type} (H : Host) (SD : Scalar D) (m : Mesh D) (nodes : List Node) :
    writePointData H SD m nodes =
      lit "<PointData>\n" ++
        forEach (fun f => asciiArray SD f nodes)
          (m.fields.filter (fun f => isNodal m f && isPrintable m f)) ++
        forEach (fun (n : Numbering) => asciiArray (intScalar H 4) n.toFieldBase nodes)
          (m.numberings.filter
            (fun n => isNodal m n.toFieldBase && isPrintable m n.toFieldBase)) ++
        forEach (fun n => asciiArray (intScalar H 8) n nodes)
          (m.globalNumberings.filter (fun n => isNodal m n && isPrintable m n)) ++
        lit "</PointData>\n" := by
  unfold writePointData
  simp only [writeNodalField_ascii]
  rw [forEach_filter (fun f => asciiArray SD f nodes),
    forEach_filter (fun (n : Numbering) => asciiArray (intScalar H 4) n.toFieldBase nodes),
    forEach_filter (fun n => asciiArray (intScalar H 8) n nodes)]

/-! ## Integration-point arrays -/

theorem forUpTo_congr (f g : Nat → Text) (n : Nat) (h : ∀ i, i < n → f i = g i) :
    forUpTo f n = forUpTo g n := by
  induction n with
  | zero => rfl
  | succ n ih =>
    simp only [forUpTo]
    rw [ih (fun i hi => h i (by omega)), h n (by omega)]

theorem WriteIPField_nodeLoop {T : Type} (S : Scalar T) (f : FieldBase T) (p n : Nat)
    (s : IPState) :
    FieldOp.nodeLoop (WriteIPField S f p) n s =
      if p < n then IPState.mk s.entity (s.out ++ ipRow S f p s.entity) else s := by
  induction n with
  | zero => simp [FieldOp.nodeLoop]
  | succ n ih =>
    simp only [FieldOp.nodeLoop]
    rw [ih]
    by_cases hpn : p < n
    · have hne : (n != p) = true := by simp; omega
      have : (WriteIPField S f p).atNode
          (IPState.mk s.entity (s.out ++ ipRow S f p s.entity)) n =
          IPState.mk s.entity (s.out ++ ipRow S f p s.entity) := by
        simp only [WriteIPField, hne, if_true]
      simp only [hpn, if_true, this, show p < n + 1 by omega]
    · by_cases hpe : n = p
      · subst hpe
        simp only [lt_irrefl, if_false, show n < n + 1 by omega, if_true]
        simp [WriteIPField, ipRow]
      · have hne : (n != p) = true := by simp; omega
        have : (WriteIPField S f p).atNode s n = s := by
          simp only [WriteIPField, hne, if_true]
        simp only [hpn, if_false, this, show ¬ p < n + 1 by omega]

theorem WriteIPField_entityLoop {T : Type} (S : Scalar T) (f : FieldBase T) (p : Nat)
    (nodesOn : MeshEntity → Nat) (es : List MeshEntity) (s : IPState) :
    (FieldOp.entityLoop (WriteIPField S f p) nodesOn es s).out =
      s.out ++ forEach (fun e => if p < nodesOn e then ipRow S f p e else []) es := by
  induction es generalizing s with
  | nil => simp [FieldOp.entityLoop, forEach]
  | cons e es ih =>
    have h1 : ((WriteIPField S f p).inEntity s e).2 = true := rfl
    have h2 : ((WriteIPField S f p).inEntity s e).1 = IPState.mk e s.out := rfl
    have h3 : ∀ t, (WriteIPField S f p).outEntity t = t := fun _ => rfl
    simp only [FieldOp.entityLoop, h1, if_true, h2, h3, forEach]
    rw [ih, WriteIPField_nodeLoop]
    by_cases hp : p < nodesOn e <;> simp [hp]

theorem WriteIPField_dimLoop {D T : Type} (S : Scalar T) (m : Mesh D) (f : FieldBase T)
    (p : Nat) (ds : List Nat) (s : IPState) :
    (FieldOp.dimLoop (WriteIPField S f p) m f ds s).out =
      s.out ++ forEach (fun e => if p < f.countNodesOn m e then ipRow S f p e else [])
        ((ds.filter (fun d => f.getShape.hasNodesIn d)).flatMap m.entities) := by
  induction ds generalizing s with
  | nil => simp [FieldOp.dimLoop, forEach]
  | cons d ds ih =>
    simp only [FieldOp.dimLoop]
    cases hd : f.getShape.hasNodesIn d
    · simp only [Bool.false_eq_true, if_false]
      rw [ih]
      simp [List.filter, hd]
    · simp only [if_true]
      rw [ih, WriteIPField_entityLoop]
      simp [List.filter, hd, List.flatMap_cons, forEach_append]

theorem WriteIPField_apply {D T : Type} (S : Scalar T) (m : Mesh D) (f : FieldBase T)
    (p : Nat) :
    ((WriteIPField S f p).apply m f (IPState.mk 0 [])).out =
      forEach (fun e => if p < f.countNodesOn m e then ipRow S f p e else []) (visited m f) := by
  unfold FieldOp.apply visited
  rw [WriteIPField_dimLoop]
  rfl

theorem isIP_spec {D T : Type} (m : Mesh D) (f : FieldBase T) (h : isIP m f = true) :
    (∀ i, i < m.getDimension → f.getShape.hasNodesIn i = false) ∧
      f.getShape.hasNodesIn m.getDimension = true := by
  unfold isIP at h
  rw [isIPLoop_iff] at h
  exact ⟨fun i hi => h.1 i (Nat.zero_le _) (by omega), h.2⟩

theorem visited_of_isIP {D T : Type} (m : Mesh D) (f : FieldBase T)
    (hdim : m.getDimension ≤ 3) (hcap : ∀ d, m.getDimension < d → m.entities d = [])
    (hip : isIP m f = true) : visited m f = m.entities m.getDimension := by
  obtain ⟨hlow, htop⟩ := isIP_spec m f hip
  unfold visited
  have key : ∀ d, d ≤ 3 →
      (if f.getShape.hasNodesIn d = true then m.entities d else []) =
        if d = m.getDimension then m.entities d else [] := by
    intro d _
    rcases lt_trichotomy d m.getDimension with h | h | h
    · simp [hlow d h, Nat.ne_of_lt h]
    · simp [h, htop]
    · simp [hcap d h, Nat.ne_of_gt h]
  have e : ∀ (l : List Nat), (l.filter (fun d => f.getShape.hasNodesIn d)).flatMap m.entities =
      l.flatMap (fun d => if f.getShape.hasNodesIn d = true then m.entities d else []) := by
    intro l
    induction l with
    | nil => rfl
    | cons d l ih =>
      cases hd : f.getShape.hasNodesIn d <;> simp [List.filter, hd, List.flatMap_cons, ih]
  rw [e]
  simp only [List.flatMap_cons, List.flatMap_nil, key 0 (by omega), key 1 (by omega),
    key 2 (by omega), key 3 (by omega)]
  have : m.getDimension = 0 ∨ m.getDimension = 1 ∨ m.getDimension = 2 ∨ m.getDimension = 3 := by
    omega
  rcases this with h | h | h | h <;> simp [h]

/-- C4 (amended): on a mesh of dimension at most 3 without entities above its
dimension, for an integration-point field-like object `f`, when the mesh has a
first top-dimension entity `e0` and every top-dimension entity carries at least as
many nodes of `f` as `e0` (in particular on a non-mixed mesh), `countIPs(f)` is
the node count `n` of `f` on `e0` and `WriteIPField::run` writes exactly the
arrays `name_1`, ..., `name_n` in that order, each with one row per top-dimension
entity in mesh order holding that entity's components at the selected point. -/
theorem WriteIPField_run_arrays {D T : Type} (S : Scalar T) (m : Mesh D) (f : FieldBase T)
    (e0 : MeshEntity) (rest : List MeshEntity)
    (hdim : m.getDimension ≤ 3) (hcap : ∀ d, m.getDimension < d → m.entities d = [])
    (hip : isIP m f = true)
    (hents : m.entities m.getDimension = e0 :: rest)
    (hfull : ∀ e ∈ rest, f.countNodesOn m e0 ≤ f.countNodesOn m e) :
    countIPs m f = some (f.countNodesOn m e0) ∧
    WriteIPField.run S m f = some (ipArrays S m f (f.countNodesOn m e0)) := by
  have hc : countIPs m f = some (f.countNodesOn m e0) := by
    unfold countIPs
    rw [hents]
  refine ⟨hc, ?_⟩
  unfold WriteIPField.run
  rw [hc]
  simp only [Option.bind_eq_bind, Option.some_bind, Option.pure_def, Option.some.injEq]
  unfold ipArrays
  apply forUpTo_congr
  intro p hp
  unfold WriteIPField.runOnce ipArray getIPName
  rw [WriteIPField_apply, visited_of_isIP m f hdim hcap hip]
  congr 2
  apply forEach_congr
  intro e he
  rw [hents] at he
  have : p < f.countNodesOn m e := by
    rcases List.mem_cons.1 he with rfl | h
    · exact hp
    · exact lt_of_lt_of_le hp (hfull e h)
  simp [this]

theorem WriteIPField_run_arrays_witness :
    isIP (exMesh [10, 12] [exIPField]) exIPField = true ∧
    (exMesh [10, 12] [exIPField]).entities (exMesh [10, 12] [exIPField]).getDimension =
      [10, 12] ∧
    countIPs (exMesh [10, 12] [exIPField]) exIPField = some 1 ∧
    WriteIPField.run exScalar (exMesh [10, 12] [exIPField]) exIPField =
      some (ipArrays exScalar (exMesh [10, 12] [exIPField]) exIPField 1) :=
  ⟨by decide, rfl,
    WriteIPField_run_arrays exScalar (exMesh [10, 12] [exIPField]) exIPField 10 [12]
      (by decide)
      (fun d hd => by
        have h2 : 2 < d := hd
        have h0 : d ≠ 0 := by omega
        have h1 : d ≠ 2 := by omega
        simp [exMesh, h0, h1])
      (by decide) rfl (by decide)⟩

/-- C4 as stated fails on a mixed mesh: with a quadrilateral (2 points) followed
by a triangle (1 point), `countIPs` is 2 and the array `s_2` has a single row
although the mesh has two top-dimension entities. -/
theorem WriteIPField_run_mixed :
    isIP (exMesh [11, 10] [exIPField]) exIPField = true ∧
    isPrintable (exMesh [11, 10] [exIPField]) exIPField = true ∧
    (exMesh [11, 10] [exIPField]).entities (exMesh [11, 10] [exIPField]).getDimension = [11, 10] ∧
    countIPs (exMesh [11, 10] [exIPField]) exIPField = some 2 ∧
    WriteIPField.run exScalar (exMesh [11, 10] [exIPField]) exIPField =
      some (lit "<DataArray type=\"Float64\" Name=\"s_1\" NumberOfComponents=\"1\" format=\"ascii\">\n1100 \n1000 \n</DataArray>\n<DataArray type=\"Float64\" Name=\"s_2\" NumberOfComponents=\"1\" format=\"ascii\">\n1101 \n</DataArray>\n") ∧
    WriteIPField.run exScalar (exMesh [11, 10] [exIPField]) exIPField ≠
      some (ipArrays exScalar (exMesh [11, 10] [exIPField]) exIPField 2) := by
  decide

/-! ## Cells: offsets and connectivity -/

theorem forEach_map {α β : Type} (body : β → Text) (g : α → β) (xs : List α) :
    forEach body (xs.map g) = forEach (fun x => body (g x)) xs := by
  induction xs with
  | nil => rfl
  | cons x xs ih => simp [forEach, ih]

theorem forUpTo_eq_forEach (body : Nat → Text) (n : Nat) :
    forUpTo body n = forEach body (List.range n) := by
  induction n with
  | zero => rfl
  | succ n ih => simp [forUpTo, List.range_succ, forEach_append, forEach, ih]

theorem vtkTypeAt_table (t : MeshType) (order : Int) (ht : t < 8)
    (ho : order = 1 ∨ order = 2) : vtkTypeAt t order = some (tableCode t order) := by
  rcases ho with rfl | rfl <;> interval_cases t <;> rfl

theorem forEachOpt_some {α : Type} (body : α → Option Text) (g : α → Text) (xs : List α)
    (h : ∀ x ∈ xs, body x = some (g x)) : forEachOpt body xs = some (forEach g xs) := by
  induction xs with
  | nil => rfl
  | cons x xs ih =>
    simp only [forEachOpt, forEach]
    rw [h x (List.mem_cons_self _ _), ih (fun y hy => h y (List.mem_cons_of_mem _ hy))]
    rfl

theorem writeTypes_some {D : Type} (m : Mesh D)
    (ho : m.getShape.getOrder = 1 ∨ m.getShape.getOrder = 2)
    (ht : ∀ e ∈ m.entities m.getDimension, m.getType e < 8) :
    writeTypes m =
      some (lit "<DataArray type=\"UInt8\" Name=\"types\" format=\"ascii\">\n" ++
        forEach (fun e => showInt (tableCode (m.getType e) m.getShape.getOrder) ++ ['\n'])
          (m.entities m.getDimension) ++
        lit "</DataArray>\n") := by
  unfold writeTypes
  rw [forEachOpt_some (typesRow m)
    (fun e => showInt (tableCode (m.getType e) m.getShape.getOrder) ++ ['\n'])]
  · rfl
  · intro e he
    unfold typesRow
    rw [vtkTypeAt_table _ _ (ht e he) ho]
    rfl

/-- C7: on a mesh of order 1 or 2 whose top-dimension entities have one of the
eight types, every table access `vtkTypes[type][order - 1]` is in bounds and
`writeTypes` writes, one row per entity in mesh order, the code of the fixed
table: vertex 1, edge 3/21, triangle 5/22, quad 9/23, tet 10/24, hex 12/25,
prism 13, pyramid 14. -/
theorem writeTypes_table {D : Type} (m : Mesh D)
    (ho : m.getShape.getOrder = 1 ∨ m.getShape.getOrder = 2)
    (ht : ∀ e ∈ m.entities m.getDimension, m.getType e < 8) :
    (∀ e ∈ m.entities m.getDimension,
      vtkTypeAt (m.getType e) m.getShape.getOrder =
        some (tableCode (m.getType e) m.getShape.getOrder)) ∧
    writeTypes m =
      some (lit "<DataArray type=\"UInt8\" Name=\"types\" format=\"ascii\">\n" ++
        forEach (fun e => showInt (tableCode (m.getType e) m.getShape.getOrder) ++ ['\n'])
          (m.entities m.getDimension) ++
        lit "</DataArray>\n") ∧
    (tableCode 0 1 = 1 ∧ tableCode 1 1 = 3 ∧ tableCode 2 1 = 5 ∧ tableCode 3 1 = 9 ∧
      tableCode 4 1 = 10 ∧ tableCode 5 1 = 12 ∧ tableCode 6 1 = 13 ∧ tableCode 7 1 = 14 ∧
      tableCode 1 2 = 21 ∧ tableCode 2 2 = 22 ∧ tableCode 3 2 = 23 ∧ tableCode 4 2 = 24 ∧
      tableCode 5 2 = 25) :=
  ⟨fun e he => vtkTypeAt_table _ _ (ht e he) ho, writeTypes_some m ho ht, by decide⟩

theorem writeTypes_table_witness :
    writeTypes (exMesh [11, 10] []) =
      some (lit "<DataArray type=\"UInt8\" Name=\"types\" format=\"ascii\">\n9\n5\n</DataArray>\n") :=
  (writeTypes_table (exMesh [11, 10] []) (Or.inl rfl) (by decide)).2.1

/-- C6: `writeTypes` on a quadratic mesh with a prism.  The table entry is `-1`
and the function writes it as a row of the `UInt8` types array; nothing stops
the write. -/
theorem writeTypes_prism_quadratic :
    exPrismMesh.getType 20 = 6 ∧ exPrismMesh.getShape.getOrder = 2 ∧
    vtkTypeAt 6 2 = some (-1) ∧
    writeTypes exPrismMesh =
      some (lit "<DataArray type=\"UInt8\" Name=\"types\" format=\"ascii\">\n-1\n</DataArray>\n") := by
  decide

/-! ## Piece sources and file names -/

theorem rfind_eq_none (c : Char) (s : Text) (h : c ∉ s) : rfind c s = none := by
  induction s with
  | nil => rfl
  | cons x xs ih =>
    have hx : x ≠ c := fun e => h (e ▸ List.mem_cons_self _ _)
    have hxs : c ∉ xs := fun e => h (List.mem_cons_of_mem _ e)
    simp [rfind, ih hxs, hx]

theorem rfind_append_cons (c : Char) (d t : Text) (h : c ∉ t) :
    rfind c (d ++ c :: t) = some d.length := by
  induction d with
  | nil => simp [rfind, rfind_eq_none c t h]
  | cons x xs ih => simp [rfind, ih]

theorem split_last (c : Char) (s : Text) :
    c ∉ s ∨ ∃ d t, s = d ++ c :: t ∧ c ∉ t := by
  induction s with
  | nil => left; simp
  | cons x xs ih =>
    rcases ih with h | ⟨d, t, hs, ht⟩
    · by_cases hx : x = c
      · right
        exact ⟨[], xs, by simp [hx], h⟩
      · left
        intro hm
        rcases List.mem_cons.1 hm with e | e
        · exact hx e.symm
        · exact h e
    · right
      exact ⟨x :: d, t, by simp [hs], ht⟩

theorem stripPath_of_not_mem (s : Text) (h : '/' ∉ s) : stripPath s = s := by
  simp [stripPath, rfind_eq_none _ s h]

theorem stripPath_append_cons (d t : Text) (h : '/' ∉ t) : stripPath (d ++ '/' :: t) = t := by
  simp [stripPath, rfind_append_cons _ d t h]

theorem stripPath_append (s t : Text) (h : '/' ∉ t) : stripPath (s ++ t) = stripPath s ++ t := by
  rcases split_last '/' s with hs | ⟨d, u, rfl, hu⟩
  · rw [stripPath_of_not_mem s hs, stripPath_of_not_mem]
    intro hm
    rcases List.mem_append.1 hm with e | e
    · exact hs e
    · exact h e
  · rw [stripPath_append_cons d u hu]
    have : d ++ '/' :: u ++ t = d ++ '/' :: (u ++ t) := by simp
    rw [this, stripPath_append_cons]
    intro hm
    rcases List.mem_append.1 hm with e | e
    · exact hu e
    · exact h e

theorem stripPath_no_slash (s : Text) : '/' ∉ stripPath s := by
  rcases split_last '/' s with hs | ⟨d, u, rfl, hu⟩
  · rw [stripPath_of_not_mem s hs]; exact hs
  · rw [stripPath_append_cons d u hu]; exact hu

theorem stripPath_decomp (s : Text) :
    ∃ dir, s = dir ++ stripPath s ∧ (dir = [] ∨ dir.getLast? = some '/') := by
  rcases split_last '/' s with hs | ⟨d, u, rfl, hu⟩
  · exact ⟨[], by rw [stripPath_of_not_mem s hs]; rfl, Or.inl rfl⟩
  · refine ⟨d ++ ['/'], ?_, Or.inr ?_⟩
    · rw [stripPath_append_cons d u hu]; simp
    · simp

theorem showInt_no_slash (v : Int) : '/' ∉ showInt v := by
  intro h
  have := showInt_chars v _ h
  revert this
  decide

theorem pieceName_no_slash (v : Int) : '/' ∉ showInt v ++ lit ".vtu" := by
  intro hm
  rcases List.mem_append.1 hm with e | e
  · exact showInt_no_slash v e
  · revert e; decide

theorem stripPath_pieceFileName (pre : Text) (v : Int) :
    stripPath (getPieceFileName pre v) = stripPath pre ++ showInt v ++ lit ".vtu" := by
  unfold getPieceFileName
  rw [List.append_assoc, stripPath_append _ _ (pieceName_no_slash v), List.append_assoc]

/-- C8: for every prefix and partition count `N`, `writePSources` writes `N`
lines, in increasing rank order, line `i` being `<Piece Source="F_i"/>` with
`F_i` the text of the prefix after its last `/` (the whole prefix when it has
none), the decimal rank `i` and `.vtu`; no source name contains a `/`; with
prefix `out` or `dir/sub/out` and two partitions the names are `out0.vtu` and
`out1.vtu`. -/
theorem writePSources_lines (pre : Text) (peers : Nat) :
    writePSources peers pre =
      forUpTo (fun i => lit "<Piece Source=\"" ++ (stripPath pre ++ showNat i ++ lit ".vtu") ++
        lit "\"/>\n") peers ∧
    (∃ dir, pre = dir ++ stripPath pre ∧ (dir = [] ∨ dir.getLast? = some '/')) ∧
    '/' ∉ stripPath pre ∧
    (∀ i : Nat, '/' ∉ stripPath pre ++ showNat i ++ lit ".vtu") ∧
    writePSources 2 (lit "out") =
      lit "<Piece Source=\"out0.vtu\"/>\n<Piece Source=\"out1.vtu\"/>\n" ∧
    writePSources 2 (lit "dir/sub/out") =
      lit "<Piece Source=\"out0.vtu\"/>\n<Piece Source=\"out1.vtu\"/>\n" := by
  refine ⟨?_, stripPath_decomp pre, stripPath_no_slash pre, ?_, by decide, by decide⟩
  · unfold writePSources
    apply forUpTo_congr
    intro i _
    unfold pieceSourceLine
    rw [stripPath_pieceFileName]
    rfl
  · intro i hm
    rw [List.append_assoc] at hm
    rcases List.mem_append.1 hm with e | e
    · exact stripPath_no_slash pre e
    · exact pieceName_no_slash (Int.ofNat i) e

theorem ofDigitsLE_digitsLE (fuel n : Nat) (h : n < fuel) : ofDigitsLE (digitsLE fuel n) = n := by
  induction fuel generalizing n with
  | zero => omega
  | succ fuel ih =>
    simp only [digitsLE]
    by_cases hn : n < 10
    · simp [hn, ofDigitsLE]
    · simp only [hn, if_false, ofDigitsLE]
      rw [ih (n / 10) (by omega)]
      omega

theorem digitsLE_lt (fuel n : Nat) : ∀ d ∈ digitsLE fuel n, d < 10 := by
  induction fuel generalizing n with
  | zero => simp [digitsLE]
  | succ fuel ih =>
    intro d hd
    simp only [digitsLE] at hd
    by_cases hn : n < 10
    · simp only [hn, if_true, List.mem_singleton] at hd
      omega
    · simp only [hn, if_false, List.mem_cons] at hd
      rcases hd with rfl | hd
      · omega
      · exact ih _ d hd

theorem digitChar_toNat (d : Nat) (h : d < 10) : (digitChar d).toNat - 48 = d := by
  interval_cases d <;> rfl

theorem showNat_injective (a b : Nat) (h : showNat a = showNat b) : a = b := by
  unfold showNat at h
  have h2 := congrArg (List.map (fun c : Char => c.toNat - 48)) h
  simp only [List.map_map] at h2
  have key : ∀ fuel n, List.map ((fun c : Char => c.toNat - 48) ∘ digitChar)
      (digitsLE fuel n).reverse = (digitsLE fuel n).reverse := by
    intro fuel n
    conv_rhs => rw [← List.map_id (digitsLE fuel n).reverse]
    apply List.map_congr_left
    intro d hd
    exact digitChar_toNat d (digitsLE_lt fuel n d (List.mem_reverse.1 hd))
  rw [key, key] at h2
  have h3 := List.reverse_injective h2
  have := congrArg ofDigitsLE h3
  rwa [ofDigitsLE_digitsLE _ _ (by omega), ofDigitsLE_digitsLE _ _ (by omega)] at this

theorem showNat_ne_nil (n : Nat) : showNat n ≠ [] := by
  unfold showNat
  simp only [digitsLE]
  by_cases hn : n < 10 <;> simp [hn]

theorem showInt_ne_nil (v : Int) : showInt v ≠ [] := by
  cases v with
  | ofNat n => exact showNat_ne_nil n
  | negSucc n => simp [showInt]

theorem showInt_injective (a b : Int) (h : showInt a = showInt b) : a = b := by
  cases a with
  | ofNat a =>
    cases b with
    | ofNat b => rw [showNat_injective a b h]
    | negSucc b =>
      exfalso
      have hm : '-' ∈ showNat a := by
        have : showNat a = '-' :: showNat (b + 1) := h
        rw [this]; exact List.mem_cons_self _ _
      have := showNat_chars a _ hm
      revert this; decide
  | negSucc a =>
    cases b with
    | ofNat b =>
      exfalso
      have hm : '-' ∈ showNat b := by
        have : '-' :: showNat (a + 1) = showNat b := h
        rw [← this]; exact List.mem_cons_self _ _
      have := showNat_chars b _ hm
      revert this; decide
    | negSucc b =>
      have : '-' :: showNat (a + 1) = '-' :: showNat (b + 1) := h
      have := showNat_injective _ _ (List.cons.inj this).2
      have : a = b := by omega
      rw [this]

/-- C9: for every prefix, two distinct ranks have distinct piece file names, and
no piece file name equals the summary file name `prefix.pvtu`. -/
theorem pieceFileName_distinct (pre : Text) (i : Int) :
    (∀ j : Int, i ≠ j → getPieceFileName pre i ≠ getPieceFileName pre j) ∧
    getPieceFileName pre i ≠ pvtuFileName pre := by
  constructor
  · intro j hij h
    unfold getPieceFileName at h
    rw [List.append_assoc, List.append_assoc] at h
    have h1 := List.append_cancel_left h
    have h2 := List.append_cancel_right h1
    exact hij (showInt_injective i j h2)
  · intro h
    unfold getPieceFileName pvtuFileName at h
    rw [List.append_assoc] at h
    have h1 := List.append_cancel_left h
    cases hs : showInt i with
    | nil => exact showInt_ne_nil i hs
    | cons c cs =>
      rw [hs] at h1
      have hc : c = '.' := (List.cons.inj h1).1
      have hm : c ∈ showInt i := by rw [hs]; exact List.mem_cons_self _ _
      have := showInt_chars i c hm
      rw [hc] at this
      revert this; decide

theorem pieceFileName_distinct_witness :
    getPieceFileName (lit "out") 0 ≠ getPieceFileName (lit "out") 1 ∧
    getPieceFileName (lit "out") 0 ≠ pvtuFileName (lit "out") :=
  ⟨(pieceFileName_distinct (lit "out") 0).1 1 (by decide),
    (pieceFileName_distinct (lit "out") 0).2⟩

/-! ## Binary arrays of nodal values -/

theorem forEachOpt_exists {α : Type} (body : α → Option Text) (xs : List α)
    (h : ∀ x ∈ xs, ∃ t, body x = some t) : ∃ t, forEachOpt body xs = some t := by
  induction xs with
  | nil => exact ⟨[], rfl⟩
  | cons x xs ih =>
    obtain ⟨t, ht⟩ := h x (List.mem_cons_self _ _)
    obtain ⟨r, hr⟩ := ih (fun y hy => h y (List.mem_cons_of_mem _ hy))
    exact ⟨t ++ r, by simp [forEachOpt, ht, hr]⟩

theorem WriteIPField_run_exists {D T : Type} (S : Scalar T) (m : Mesh D) (f : FieldBase T)
    (h : m.entities m.getDimension ≠ []) : ∃ t, WriteIPField.run S m f = some t := by
  unfold WriteIPField.run countIPs
  cases he : m.entities m.getDimension with
  | nil => exact absurd he h
  | cons e es => exact ⟨_, rfl⟩

theorem writeCellData_exists {D : Type} (H : Host) (SD : Scalar D) (m : Mesh D)
    (isWritingBinary : Bool) (h : m.entities m.getDimension ≠ []) :
    ∃ t, writeCellData H SD m isWritingBinary = some t := by
  obtain ⟨a, ha⟩ := forEachOpt_exists
    (fun f => if isIP m f && isPrintable m f then WriteIPField.run SD m f else some [])
    m.fields (fun f _ => by
      by_cases hc : (isIP m f && isPrintable m f) = true
      · simp only [hc, if_true]; exact WriteIPField_run_exists SD m f h
      · simp only [hc, if_false]; exact ⟨[], rfl⟩)
  obtain ⟨b, hb⟩ := forEachOpt_exists
    (fun (n : Numbering) =>
      if isIP m n.toFieldBase && isPrintable m n.toFieldBase then
        WriteIPField.run (intScalar H 4) m n.toFieldBase
      else some [])
    m.numberings (fun f _ => by
      by_cases hc : (isIP m f.toFieldBase && isPrintable m f.toFieldBase) = true
      · simp only [hc, if_true]; exact WriteIPField_run_exists _ m _ h
      · simp only [hc, if_false]; exact ⟨[], rfl⟩)
  obtain ⟨c, hc⟩ := forEachOpt_exists
    (fun n =>
      if isIP m n && isPrintable m n then WriteIPField.run (intScalar H 8) m n else some [])
    m.globalNumberings (fun f _ => by
      by_cases hc : (isIP m f && isPrintable m f) = true
      · simp only [hc, if_true]; exact WriteIPField_run_exists _ m _ h
      · simp only [hc, if_false]; exact ⟨[], rfl⟩)
  unfold writeCellData
  rw [ha, hb, hc]
  exact ⟨_, rfl⟩

theorem writeVtuFile_exists {D : Type} (H : Host) (SD : Scalar D) (m : Mesh D) (n : Numbering)
    (isWritingBinary : Bool)
    (ho : m.getShape.getOrder = 1 ∨ m.getShape.getOrder = 2)
    (ht : ∀ e ∈ m.entities m.getDimension, m.getType e < 8)
    (h : m.entities m.getDimension ≠ []) :
    ∃ out, writeVtuFile H SD m n isWritingBinary = some out := by
  obtain ⟨cd, hcd⟩ := writeCellData_exists H SD m isWritingBinary h
  unfold writeVtuFile writeCells
  rw [writeTypes_some m ho ht, hcd]
  exact ⟨_, rfl⟩

/-- C1: for every mesh state and node set of the overlap numbering, every piece
built by `writeVtuFile` (ASCII or binary flag) carries the size of the node set
as `NumberOfPoints`, its `Points` array is the ASCII array of the coordinate
field over the node set, and `PointData` holds one ASCII array per nodal,
printable value field, numbering and global numbering over the same node set;
the payload of each of these arrays has exactly as many rows as the node set
has nodes.  The piece is built whenever the mesh has order 1 or 2, cells of the
eight types and at least one cell. -/
theorem writeVtuFile_point_rows {D : Type} (H : Host) (SD : Scalar D) (m : Mesh D)
    (n : Numbering) (isWritingBinary : Bool) (hfmt : ∀ v, '\n' ∉ SD.fmt v) :
    (∀ out, writeVtuFile H SD m n isWritingBinary = some out →
      ∃ cells cellData : Text,
        out = vtuOpening H isWritingBinary ++ lit "<UnstructuredGrid>\n" ++
          (lit "<Piece NumberOfPoints=\"" ++ showNat n.getNodes.length ++
            lit "\" NumberOfCells=\"" ++ showNat (m.count m.getDimension) ++ lit "\">\n") ++
          (lit "<Points>\n" ++ asciiArray SD m.getCoordinateField n.getNodes ++
            lit "</Points>\n") ++
          cells ++
          (lit "<PointData>\n" ++
            forEach (fun f => asciiArray SD f n.getNodes)
              (m.fields.filter (fun f => isNodal m f && isPrintable m f)) ++
            forEach (fun (k : Numbering) => asciiArray (intScalar H 4) k.toFieldBase n.getNodes)
              (m.numberings.filter
                (fun k => isNodal m k.toFieldBase && isPrintable m k.toFieldBase)) ++
            forEach (fun g => asciiArray (intScalar H 8) g n.getNodes)
              (m.globalNumberings.filter (fun g => isNodal m g && isPrintable m g)) ++
            lit "</PointData>\n") ++
          cellData ++ lit "</Piece>\n" ++ lit "</UnstructuredGrid>\n" ++ lit "</VTKFile>\n") ∧
    ((m.getShape.getOrder = 1 ∨ m.getShape.getOrder = 2) →
      (∀ e ∈ m.entities m.getDimension, m.getType e < 8) →
      m.entities m.getDimension ≠ [] →
      ∃ out, writeVtuFile H SD m n isWritingBinary = some out) ∧
    countRows (asciiPayload SD m.getCoordinateField n.getNodes) = n.getNodes.length ∧
    (∀ f ∈ m.fields, countRows (asciiPayload SD f n.getNodes) = n.getNodes.length) ∧
    (∀ k ∈ m.numberings,
      countRows (asciiPayload (intScalar H 4) k.toFieldBase n.getNodes) = n.getNodes.length) ∧
    (∀ g ∈ m.globalNumberings,
      countRows (asciiPayload (intScalar H 8) g n.getNodes) = n.getNodes.length) := by
  refine ⟨?_, writeVtuFile_exists H SD m n isWritingBinary,
    countRows_asciiPayload _ _ _ hfmt,
    fun f _ => countRows_asciiPayload _ _ _ hfmt,
    fun k _ => countRows_asciiPayload _ _ _ (fun v => showInt_no_newline v),
    fun g _ => countRows_asciiPayload _ _ _ (fun v => showInt_no_newline v)⟩
  intro out hout
  unfold writeVtuFile at hout
  cases hc : writeCells m n with
  | none => simp [hc] at hout
  | some cells =>
    cases hd : writeCellData H SD m isWritingBinary with
    | none => simp [hc, hd] at hout
    | some cellData =>
      simp only [hc, hd, Option.bind_eq_bind, Option.some_bind, Option.pure_def,
        Option.some.injEq] at hout
      refine ⟨cells, cellData, ?_⟩
      rw [← hout, ← writePointData_eq]
      simp only [pieceLine, writePoints, writeNodalField_ascii]

theorem writeVtuFile_point_rows_witness :
    (∀ v, '\n' ∉ exScalar.fmt v) ∧
    (∃ out, writeVtuFile exHost exScalar (exMesh [11, 10] [exFull, exPartial, exIPField])
      exNumbering true = some out) ∧
    countRows (asciiPayload exScalar
      (exMesh [11, 10] [exFull, exPartial, exIPField]).getCoordinateField
      exNumbering.getNodes) = 4 :=
  ⟨fun v => showInt_no_newline v,
    (writeVtuFile_point_rows exHost exScalar (exMesh [11, 10] [exFull, exPartial, exIPField])
      exNumbering true (fun v => showInt_no_newline v)).2.1 (Or.inl rfl) (by decide)
      (by decide),
    (writeVtuFile_point_rows exHost exScalar (exMesh [11, 10] [exFull, exPartial, exIPField])
      exNumbering true (fun v => showInt_no_newline v)).2.2.1⟩

/-! ## `stripPath` -/

theorem stripPath_suffix (s : Text) : stripPath s <:+ s := by
  obtain ⟨dir, h, _⟩ := stripPath_decomp s
  exact ⟨dir, h.symm⟩

theorem suffix_le_stripPath (s t : Text) (ht : t <:+ s) (hno : '/' ∉ t) :
    t.length ≤ (stripPath s).length := by
  rcases split_last '/' s with hs | ⟨d, u, rfl, hu⟩
  · rw [stripPath_of_not_mem s hs]
    exact ht.length_le
  · rw [stripPath_append_cons d u hu]
    have hsuf : ('/' :: u) <:+ d ++ '/' :: u := List.suffix_append _ _
    rcases List.suffix_or_suffix_of_suffix ht hsuf with h | h
    · by_contra hlt
      have hlen : t.length = ('/' :: u).length := by
        have := h.length_le
        simp only [List.length_cons] at this ⊢
        omega
      have := h.eq_of_length hlen
      exact hno (this ▸ List.mem_cons_self _ _)
    · exact absurd (h.subset (List.mem_cons_self _ _)) hno

theorem stripPath_of_getLast (s : Text) (h : s.getLast? = some '/') : stripPath s = [] := by
  have hne : s ≠ [] := by
    intro e
    rw [e] at h
    simp at h
  have hl : s.getLast hne = '/' := by
    rw [List.getLast?_eq_getLast _ hne] at h
    exact Option.some.inj h
  have hs : s = s.dropLast ++ ['/'] := by
    rw [← hl, List.dropLast_append_getLast hne]
  rw [hs]
  exact stripPath_append_cons s.dropLast [] (by simp)

/-- C20: for every string `s`, `stripPath(s)` has no `/`, is a suffix of `s` and
is the longest suffix of `s` without `/`; it is `s` when `s` has no `/`, it is
empty when `s` ends in `/`, and `stripPath` is idempotent. -/
theorem stripPath_longest_suffix (s : Text) :
    '/' ∉ stripPath s ∧
    stripPath s <:+ s ∧
    (∀ t : Text, t <:+ s → '/' ∉ t → t.length ≤ (stripPath s).length) ∧
    ('/' ∉ s → stripPath s = s) ∧
    (s.getLast? = some '/' → stripPath s = []) ∧
    stripPath (stripPath s) = stripPath s :=
  ⟨stripPath_no_slash s, stripPath_suffix s, suffix_le_stripPath s,
    stripPath_of_not_mem s, stripPath_of_getLast s,
    stripPath_of_not_mem _ (stripPath_no_slash s)⟩

theorem stripPath_longest_suffix_witness :
    (lit "out").length ≤ (stripPath (lit "dir/sub/out")).length ∧
    stripPath (lit "out0.vtu") = lit "out0.vtu" ∧
    stripPath (lit "dir/") = [] :=
  ⟨(stripPath_longest_suffix (lit "dir/sub/out")).2.2.1 (lit "out")
      ⟨lit "dir/sub/", rfl⟩ (by decide),
    (stripPath_longest_suffix (lit "out0.vtu")).2.2.2.1 (by decide),
    (stripPath_longest_suffix (lit "dir/")).2.2.2.2.1 (by decide)⟩


/-! ## Parallel coordinator: runs -/

theorem writeVtuFileEvents_eq {D : Type} (H : Host) (SD : Scalar D) (C : Comm) (pre : Text)
    (m : Mesh D) (n : Numbering) (isWritingBinary : Bool) :
    writeVtuFileEvents H SD C pre m n isWritingBinary =
      (writeVtuFile H SD m n isWritingBinary).map (fun buf =>
        [Event.barrier, Event.serialize buf, Event.barrier,
          Event.flushPiece (getPieceFileName pre (Int.ofNat C.self)) buf, Event.barrier]) := by
  unfold writeVtuFileEvents
  cases writeVtuFile H SD m n isWritingBinary <;> rfl

theorem writePvtuFile_eq {D : Type} (peers : Nat) (pre : Text) (m : Mesh D) :
    writePvtuFile peers pre m =
      (writePCellData m).map (fun cellData =>
        (lit "<VTKFile type=\"PUnstructuredGrid\">\n" ++
          lit "<PUnstructuredGrid GhostLevel=\"0\">\n" ++
          writePPoints m.getCoordinateField ++ writePPointData m ++ cellData) ++
        writePSources peers pre ++
        (lit "</PUnstructuredGrid>\n" ++ lit "</VTKFile>\n")) := by
  unfold writePvtuFile
  cases writePCellData m
  · rfl
  · simp

/-- C16: for every mesh state, rank and binary flag and every two prefixes, the
content `writeVtuFile` flushes to the piece file is the same for both prefixes
(the runs differ in the name of the flushed file only), and the summary content
of `writePvtuFile` is, for both prefixes, the same head followed by the
`<Piece Source=...>` lines of `writePSources` followed by the same tail. -/
theorem prefix_only_in_file_names {D : Type} (H : Host) (SD : Scalar D) (C : Comm)
    (m : Mesh D) (n : Numbering) (isWritingBinary : Bool) (p1 p2 : Text) :
    (writeVtuFileEvents H SD C p1 m n isWritingBinary).map (List.map Event.fileContent) =
      (writeVtuFileEvents H SD C p2 m n isWritingBinary).map (List.map Event.fileContent) ∧
    (∀ p : Text, writeVtuFileEvents H SD C p m n isWritingBinary =
      (writeVtuFile H SD m n isWritingBinary).map (fun buf =>
        [Event.barrier, Event.serialize buf, Event.barrier,
          Event.flushPiece (getPieceFileName p (Int.ofNat C.self)) buf, Event.barrier])) ∧
    (∃ headTail : Option (Text × Text), ∀ p : Text,
      writePvtuFile C.peers p m =
        headTail.map (fun ht => ht.1 ++ forUpTo (pieceSourceLine p) C.peers ++ ht.2)) := by
  refine ⟨?_, fun p => writeVtuFileEvents_eq H SD C p m n isWritingBinary, ?_⟩
  · rw [writeVtuFileEvents_eq, writeVtuFileEvents_eq]
    cases writeVtuFile H SD m n isWritingBinary <;> rfl
  · refine ⟨(writePCellData m).map (fun cellData =>
      (lit "<VTKFile type=\"PUnstructuredGrid\">\n" ++
          lit "<PUnstructuredGrid GhostLevel=\"0\">\n" ++
          writePPoints m.getCoordinateField ++ writePPointData m ++ cellData,
        lit "</PUnstructuredGrid>\n" ++ lit "</VTKFile>\n")), fun p => ?_⟩
    rw [writePvtuFile_eq]
    cases writePCellData m <;> rfl

theorem writeVtuFileEvents_some {D : Type} (H : Host) (SD : Scalar D) (C : Comm) (pre : Text)
    (m : Mesh D) (n : Numbering) (buf : Text) (isWritingBinary : Bool)
    (hbuf : writeVtuFile H SD m n isWritingBinary = some buf) :
    writeVtuFileEvents H SD C pre m n isWritingBinary =
      some [Event.barrier, Event.serialize buf, Event.barrier,
        Event.flushPiece (getPieceFileName pre (Int.ofNat C.self)) buf, Event.barrier] := by
  rw [writeVtuFileEvents_eq, hbuf]
  rfl

theorem writeVtkFiles_leader {D : Type} (H : Host) (SD : Scalar D) (C : Comm) (pre : Text)
    (m : Mesh D) (n : Numbering) (summary buf : Text) (h0 : C.self = 0)
    (hs : writePvtuFile C.peers pre m = some summary)
    (hb : writeVtuFile H SD m n false = some buf) :
    writeVtkFiles H SD C pre m n =
      some [Event.writeSummary (pvtuFileName pre) summary, Event.numberOverlapNodes,
        Event.barrier, Event.serialize buf, Event.barrier,
        Event.flushPiece (getPieceFileName pre (Int.ofNat C.self)) buf, Event.barrier] := by
  unfold writeVtkFiles writePvtuFileEvents
  rw [writeVtuFileEvents_some H SD C pre m n buf false hb, hs]
  simp [h0]

theorem writeVtkFiles_other {D : Type} (H : Host) (SD : Scalar D) (C : Comm) (pre : Text)
    (m : Mesh D) (n : Numbering) (buf : Text) (h0 : C.self ≠ 0)
    (hb : writeVtuFile H SD m n false = some buf) :
    writeVtkFiles H SD C pre m n =
      some [Event.numberOverlapNodes,
        Event.barrier, Event.serialize buf, Event.barrier,
        Event.flushPiece (getPieceFileName pre (Int.ofNat C.self)) buf, Event.barrier] := by
  unfold writeVtkFiles
  rw [writeVtuFileEvents_some H SD C pre m n buf false hb]
  simp [h0]

theorem writeBinaryInlineVtkFiles_leader {D : Type} (H : Host) (SD : Scalar D) (C : Comm)
    (pre : Text) (m : Mesh D) (n : Numbering) (summary buf : Text) (h0 : C.self = 0)
    (hs : writePvtuFile C.peers pre m = some summary)
    (hb : writeVtuFile H SD m n true = some buf) :
    writeBinaryInlineVtkFiles H SD C pre m n =
      some [Event.writeSummary (pvtuFileName pre) summary, Event.numberOverlapNodes,
        Event.barrier, Event.serialize buf, Event.barrier,
        Event.flushPiece (getPieceFileName pre (Int.ofNat C.self)) buf, Event.barrier] := by
  unfold writeBinaryInlineVtkFiles writePvtuFileEvents
  rw [writeVtuFileEvents_some H SD C pre m n buf true hb, hs]
  simp [h0]

theorem writeBinaryInlineVtkFiles_other {D : Type} (H : Host) (SD : Scalar D) (C : Comm)
    (pre : Text) (m : Mesh D) (n : Numbering) (buf : Text) (h0 : C.self ≠ 0)
    (hb : writeVtuFile H SD m n true = some buf) :
    writeBinaryInlineVtkFiles H SD C pre m n =
      some [Event.numberOverlapNodes,
        Event.barrier, Event.serialize buf, Event.barrier,
        Event.flushPiece (getPieceFileName pre (Int.ofNat C.self)) buf, Event.barrier] := by
  unfold writeBinaryInlineVtkFiles
  rw [writeVtuFileEvents_some H SD C pre m n buf true hb]
  simp [h0]

/-- C18 (amended): in every run of the full write (`writeVtkFiles` and
`writeBinaryInlineVtkFiles`) the ordered sequence of coordination events on the
leader is: write of the `.pvtu` summary file, build of the overlap node
numbering, barrier, serialisation of the piece into the buffer, barrier, flush of
the buffer to `<prefix><rank>.vtu`, barrier; the other partitions perform the
same sequence without the summary write. -/
theorem full_write_sequence {D : Type} (H : Host) (SD : Scalar D) (C : Comm) (pre : Text)
    (m : Mesh D) (n : Numbering) :
    (∀ summary buf : Text, C.self = 0 → writePvtuFile C.peers pre m = some summary →
      writeVtuFile H SD m n false = some buf →
      writeVtkFiles H SD C pre m n =
        some [Event.writeSummary (pvtuFileName pre) summary, Event.numberOverlapNodes,
          Event.barrier, Event.serialize buf, Event.barrier,
          Event.flushPiece (getPieceFileName pre (Int.ofNat C.self)) buf, Event.barrier]) ∧
    (∀ buf : Text, C.self ≠ 0 → writeVtuFile H SD m n false = some buf →
      writeVtkFiles H SD C pre m n =
        some [Event.numberOverlapNodes,
          Event.barrier, Event.serialize buf, Event.barrier,
          Event.flushPiece (getPieceFileName pre (Int.ofNat C.self)) buf, Event.barrier]) ∧
    (∀ summary buf : Text, C.self = 0 → writePvtuFile C.peers pre m = some summary →
      writeVtuFile H SD m n true = some buf →
      writeBinaryInlineVtkFiles H SD C pre m n =
        some [Event.writeSummary (pvtuFileName pre) summary, Event.numberOverlapNodes,
          Event.barrier, Event.serialize buf, Event.barrier,
          Event.flushPiece (getPieceFileName pre (Int.ofNat C.self)) buf, Event.barrier]) ∧
    (∀ buf : Text, C.self ≠ 0 → writeVtuFile H SD m n true = some buf →
      writeBinaryInlineVtkFiles H SD C pre m n =
        some [Event.numberOverlapNodes,
          Event.barrier, Event.serialize buf, Event.barrier,
          Event.flushPiece (getPieceFileName pre (Int.ofNat C.self)) buf, Event.barrier]) :=
  ⟨fun summary buf h0 hs hb => writeVtkFiles_leader H SD C pre m n summary buf h0 hs hb,
    fun buf h0 hb => writeVtkFiles_other H SD C pre m n buf h0 hb,
    fun summary buf h0 hs hb =>
      writeBinaryInlineVtkFiles_leader H SD C pre m n summary buf h0 hs hb,
    fun buf h0 hb => writeBinaryInlineVtkFiles_other H SD C pre m n buf h0 hb⟩

theorem full_write_sequence_witness :
    ∃ summary buf : Text,
      writeVtkFiles exHost exScalar exLeader (lit "out") (exMesh [10] []) exNumbering =
        some [Event.writeSummary (lit "out.pvtu") summary, Event.numberOverlapNodes,
          Event.barrier, Event.serialize buf, Event.barrier,
          Event.flushPiece (lit "out0.vtu") buf, Event.barrier] :=
  match hs : writePvtuFile exLeader.peers (lit "out") (exMesh [10] []),
      hb : writeVtuFile exHost exScalar (exMesh [10] []) exNumbering false with
  | some summary, some buf =>
    ⟨summary, buf,
      (full_write_sequence exHost exScalar exLeader (lit "out") (exMesh [10] [])
        exNumbering).1 summary buf rfl hs hb⟩
  | none, _ => absurd hs (by decide)
  | _, none => absurd hb (by decide)

/-- C18 as stated fails: on the leader the first event of `writeVtkFiles` is the
write of the summary file `out.pvtu`, before any barrier; the run is not the
sequence barrier, summary write, numbering, serialisation, barrier, flush,
barrier, whatever the two contents. -/
theorem full_write_summary_first :
    (writeVtkFiles exHost exScalar exLeader (lit "out") (exMesh [10] []) exNumbering).map
        (fun evs => evs.head?.map Event.fileName) = some (some (some (lit "out.pvtu"))) ∧
    ∀ summary buf : Text,
      writeVtkFiles exHost exScalar exLeader (lit "out") (exMesh [10] []) exNumbering ≠
        some (specFullWriteLeader (lit "out") 0 summary buf) := by
  refine ⟨by decide, ?_⟩
  intro summary buf h
  have h2 := congrArg (Option.map (fun evs => evs.head?.map Event.fileName)) h
  have h3 : (writeVtkFiles exHost exScalar exLeader (lit "out") (exMesh [10] [])
      exNumbering).map (fun evs => evs.head?.map Event.fileName) =
      some (some (some (lit "out.pvtu"))) := by decide
  rw [h3] at h2
  simp [specFullWriteLeader, Event.fileName] at h2

theorem writeOneVtkFile_eq {D : Type} (H : Host) (SD : Scalar D) (C : Comm) (pre : Text)
    (m : Mesh D) (n : Numbering) :
    writeOneVtkFile H SD C pre m n =
      (writeVtuFile H SD m n false).map (fun buf =>
        [Event.numberOverlapNodes, Event.barrier, Event.serialize buf, Event.barrier,
          Event.flushPiece (getPieceFileName pre (Int.ofNat C.self)) buf, Event.barrier]) := by
  unfold writeOneVtkFile
  rw [writeVtuFileEvents_eq]
  cases writeVtuFile H SD m n false <;> rfl

/-- C19: `writeOneVtkFile` on the leader of the example run.  The summary file
is not written and the flushed piece content is the one the ASCII full write
flushes, but the run executes the three barriers of `writeVtuFile`; on every
mesh and rank the run is numbering, barrier, serialisation, barrier, flush,
barrier. -/
theorem writeOneVtkFile_barriers :
    (writeOneVtkFile exHost exScalar exLeader (lit "out") (exMesh [10] []) exNumbering).map
        (List.count Event.barrier) = some 3 ∧
    (writeOneVtkFile exHost exScalar exLeader (lit "out") (exMesh [10] []) exNumbering).map
        (List.map Event.fileName) =
      some [none, none, none, none, some (lit "out0.vtu"), none] ∧
    (writeOneVtkFile exHost exScalar exLeader (lit "out") (exMesh [10] []) exNumbering).map
        (List.filterMap Event.flushed) =
      (writeVtkFiles exHost exScalar exLeader (lit "out") (exMesh [10] []) exNumbering).map
        (List.filterMap Event.flushed) ∧
    (∀ (D : Type) (H : Host) (SD : Scalar D) (C : Comm) (pre : Text) (m : Mesh D)
        (n : Numbering),
      writeOneVtkFile H SD C pre m n =
        (writeVtuFile H SD m n false).map (fun buf =>
          [Event.numberOverlapNodes, Event.barrier, Event.serialize buf, Event.barrier,
            Event.flushPiece (getPieceFileName pre (Int.ofNat C.self)) buf, Event.barrier])) := by
  refine ⟨by decide, by decide, by decide,
    fun D H SD C pre m n => writeOneVtkFile_eq H SD C pre m n⟩

/-! ## Base64 and byte images -/

theorem b64Char_mem (v : Nat) : b64Char v ∈ base64Alphabet := by
  by_cases h : v < 64
  · revert v
    decide
  · unfold b64Char
    rw [List.getD_eq_default _ _ (by simpa [base64Alphabet, lit] using h)]
    decide

theorem base64Encode_chars (bs : List Nat) :
    ∀ c ∈ base64Encode bs, c ∈ base64Alphabet ∨ c = '=' := by
  match bs with
  | [] => simp [base64Encode]
  | [a] =>
    intro c hc
    simp only [base64Encode, List.mem_cons, List.mem_singleton, List.not_mem_nil, or_false] at hc
    rcases hc with rfl | rfl | rfl | rfl
    · exact Or.inl (b64Char_mem _)
    · exact Or.inl (b64Char_mem _)
    · exact Or.inr rfl
    · exact Or.inr rfl
  | [a, b] =>
    intro c hc
    simp only [base64Encode, List.mem_cons, List.mem_singleton, List.not_mem_nil, or_false] at hc
    rcases hc with rfl | rfl | rfl | rfl
    · exact Or.inl (b64Char_mem _)
    · exact Or.inl (b64Char_mem _)
    · exact Or.inl (b64Char_mem _)
    · exact Or.inr rfl
  | a :: b :: c :: rest =>
    intro x hx
    simp only [base64Encode, List.mem_cons] at hx
    rcases hx with rfl | rfl | rfl | rfl | hx
    · exact Or.inl (b64Char_mem _)
    · exact Or.inl (b64Char_mem _)
    · exact Or.inl (b64Char_mem _)
    · exact Or.inl (b64Char_mem _)
    · exact base64Encode_chars rest x hx

theorem base64Encode_no_space (bs : List Nat) (c : Char) (hc : c ∈ base64Encode bs) :
    c ≠ ' ' ∧ c ≠ '\n' ∧ c ≠ '\t' := by
  have key : ∀ x ∈ base64Alphabet, x ≠ ' ' ∧ x ≠ '\n' ∧ x ≠ '\t' := by decide
  rcases base64Encode_chars bs c hc with h | rfl
  · exact key c h
  · decide

theorem writeNodalField_binary {T : Type} (H : Host) (S : Scalar T) (f : FieldBase T)
    (nodes : List Node) :
    writeNodalField H S f nodes true =
      writeDataHeader f.getName f.getScalarType f.countComponents true ++
        (H.base64Encode (nativeBytes H.bigEndian 4 (nodalDataLenBytes S f nodes)) ++
          H.base64Encode
            (((fillBuffer f nodes []).flatMap S.bytes).take (nodalDataLenBytes S f nodes)) ++
          ['\n']) ++
        lit "</DataArray>\n" := by
  simp [writeNodalField, binaryPayload]

theorem writeCellParts_binary {D : Type} (H : Host) (m : Mesh D) :
    writeCellParts H m true =
      writeDataHeader (lit "apf_part") ValueType.INT 1 true ++
        (H.base64Encode (nativeBytes H.bigEndian 4 (partsDataLenBytes m)) ++
          H.base64Encode
            (((List.replicate (m.count m.getDimension) m.getId).flatMap
              (intScalar H 4).bytes).take (partsDataLenBytes m)) ++
          ['\n']) ++
        lit "</DataArray>\n" := by
  simp [writeCellParts, lit]

/-- C11 (amended): in every binary array (`writeNodalField` and `writeCellParts`
in binary mode) the header line is followed by the base64 encoding of the 4-byte
native-endian length, immediately followed by the base64 encoding of the payload
bytes, then a newline and the closing tag; nothing is written between the two
encodings, and base64 text holds no blank, tab or newline. -/
theorem binary_prefix_encoded {D T : Type} (H : Host) (S : Scalar T) (f : FieldBase T)
    (nodes : List Node) (m : Mesh D) :
    writeNodalField H S f nodes true =
      writeDataHeader f.getName f.getScalarType f.countComponents true ++
        (H.base64Encode (nativeBytes H.bigEndian 4 (nodalDataLenBytes S f nodes)) ++
          H.base64Encode
            (((fillBuffer f nodes []).flatMap S.bytes).take (nodalDataLenBytes S f nodes)) ++
          ['\n']) ++
        lit "</DataArray>\n" ∧
    writeCellParts H m true =
      writeDataHeader (lit "apf_part") ValueType.INT 1 true ++
        (H.base64Encode (nativeBytes H.bigEndian 4 (partsDataLenBytes m)) ++
          H.base64Encode
            (((List.replicate (m.count m.getDimension) m.getId).flatMap
              (intScalar H 4).bytes).take (partsDataLenBytes m)) ++
          ['\n']) ++
        lit "</DataArray>\n" ∧
    (∀ (bs : List Nat) (c : Char), c ∈ base64Encode bs → c ≠ ' ' ∧ c ≠ '\n' ∧ c ≠ '\t') :=
  ⟨writeNodalField_binary H S f nodes, writeCellParts_binary H m, base64Encode_no_space⟩

/-- C11 as stated fails: for a 2-component field over five rows of 8-byte
values the length is 80, and what follows the header line is its base64 text
`UAAAAA==`, not the four raw bytes 80, 0, 0, 0; likewise for `apf_part` of a
two-cell mesh (length 8, text `CAAAAA==`). -/
theorem binary_prefix_not_raw :
    nodalDataLenBytes exScalar exFull exFiveNodes = 80 ∧
    writeNodalField stdHost exScalar exFull exFiveNodes true =
      lit "<DataArray type=\"Float64\" Name=\"u\" format=\"binary\">\n" ++ lit "UAAAAA==" ++
        nodalPayloadText stdHost exScalar exFull exFiveNodes ++ lit "\n</DataArray>\n" ∧
    rawBytesText (nativeBytes stdHost.bigEndian 4 80) =
      [Char.ofNat 80, Char.ofNat 0, Char.ofNat 0, Char.ofNat 0] ∧
    writeNodalField stdHost exScalar exFull exFiveNodes true ≠
      lit "<DataArray type=\"Float64\" Name=\"u\" format=\"binary\">\n" ++
        rawBytesText (nativeBytes stdHost.bigEndian 4 80) ++
        nodalPayloadText stdHost exScalar exFull exFiveNodes ++ lit "\n</DataArray>\n" ∧
    writeCellParts stdHost (exMesh [11, 10] []) true =
      lit "<DataArray type=\"Int32\" Name=\"apf_part\" format=\"binary\">\n" ++ lit "CAAAAA==" ++
        partsPayloadText stdHost (exMesh [11, 10] []) ++ lit "\n</DataArray>\n" ∧
    writeCellParts stdHost (exMesh [11, 10] []) true ≠
      lit "<DataArray type=\"Int32\" Name=\"apf_part\" format=\"binary\">\n" ++
        rawBytesText (nativeBytes stdHost.bigEndian 4 8) ++
        partsPayloadText stdHost (exMesh [11, 10] []) ++ lit "\n</DataArray>\n" := by
  decide

theorem binary_prefix_encoded_witness :
    'U' ≠ ' ' ∧ 'U' ≠ '\n' ∧ 'U' ≠ '\t' :=
  (binary_prefix_encoded stdHost exScalar exFull exFiveNodes (exMesh [11, 10] [])).2.2
    [80, 0, 0, 0] 'U' (by decide)

theorem writeCellParts_ascii {D : Type} (H : Host) (m : Mesh D) :
    writeCellParts H m false =
      writeDataHeader (lit "apf_part") ValueType.INT 1 false ++
        forEach (fun v => showInt v ++ ['\n'])
          (List.replicate (m.count m.getDimension) m.getId) ++
        lit "</DataArray>\n" := by
  have h : ∀ k : Nat, forUpTo (fun _ => showInt m.getId ++ ['\n']) k =
      forEach (fun v => showInt v ++ ['\n']) (List.replicate k m.getId) := by
    intro k
    induction k with
    | zero => rfl
    | succ k ih =>
      rw [forUpTo, ih, List.replicate_succ', forEach_append]
      simp [forEach]
  simp [writeCellParts, h]

theorem vtuOpening_binary (H : Host) :
    vtuOpening H true =
      lit "<VTKFile type=\"UnstructuredGrid\" byte_order=" ++
        (if H.bigEndian then lit "\"BigEndian\"" else lit "\"LittleEndian\"") ++
        lit " header_type=\"UInt32\">\n" := by
  unfold vtuOpening is_big_endian
  cases hb : H.bigEndian <;> simp [nativeBytes, lit, List.range_succ]

theorem writeVtuFile_parts {D : Type} (H : Host) (SD : Scalar D) (m : Mesh D) (n : Numbering)
    (isWritingBinary : Bool) (out : Text)
    (hout : writeVtuFile H SD m n isWritingBinary = some out) :
    ∃ cells cellData : Text,
      writeCells m n = some cells ∧ writeCellData H SD m isWritingBinary = some cellData ∧
      out = vtuOpening H isWritingBinary ++ lit "<UnstructuredGrid>\n" ++
        pieceLine m n.getNodes ++
        (lit "<Points>\n" ++ asciiArray SD m.getCoordinateField n.getNodes ++
          lit "</Points>\n") ++
        cells ++
        (lit "<PointData>\n" ++
          forEach (fun f => asciiArray SD f n.getNodes)
            (m.fields.filter (fun f => isNodal m f && isPrintable m f)) ++
          forEach (fun (k : Numbering) => asciiArray (intScalar H 4) k.toFieldBase n.getNodes)
            (m.numberings.filter
              (fun k => isNodal m k.toFieldBase && isPrintable m k.toFieldBase)) ++
          forEach (fun g => asciiArray (intScalar H 8) g n.getNodes)
            (m.globalNumberings.filter (fun g => isNodal m g && isPrintable m g)) ++
          lit "</PointData>\n") ++
        cellData ++ lit "</Piece>\n" ++ lit "</UnstructuredGrid>\n" ++ lit "</VTKFile>\n" := by
  unfold writeVtuFile at hout
  cases hc : writeCells m n with
  | none => simp [hc] at hout
  | some cells =>
    cases hd : writeCellData H SD m isWritingBinary with
    | none => simp [hc, hd] at hout
    | some cellData =>
      simp only [hc, hd, Option.bind_eq_bind, Option.some_bind, Option.pure_def,
        Option.some.injEq] at hout
      refine ⟨cells, cellData, rfl, rfl, ?_⟩
      rw [← hout, ← writePointData_eq]
      simp only [writePoints, writeNodalField_ascii]

/-- C13: the piece written with the binary flag set.  The `VTKFile` element
carries `byte_order` and `header_type="UInt32"`, but `writeVtuFile` calls
`writePoints` and `writePointData` without the flag: the `Points` array and every
`PointData` array are the ASCII arrays (`format="ascii"`, one text row per node),
the same text as with the flag clear; only `apf_part` is binary. -/
theorem binary_flag_points_ascii :
    (∀ (D : Type) (H : Host) (SD : Scalar D) (m : Mesh D) (n : Numbering) (out : Text),
      writeVtuFile H SD m n true = some out →
      ∃ cells cellData : Text,
        out = (lit "<VTKFile type=\"UnstructuredGrid\" byte_order=" ++
            (if H.bigEndian then lit "\"BigEndian\"" else lit "\"LittleEndian\"") ++
            lit " header_type=\"UInt32\">\n") ++ lit "<UnstructuredGrid>\n" ++
          pieceLine m n.getNodes ++
          (lit "<Points>\n" ++ asciiArray SD m.getCoordinateField n.getNodes ++
            lit "</Points>\n") ++
          cells ++
          (lit "<PointData>\n" ++
            forEach (fun f => asciiArray SD f n.getNodes)
              (m.fields.filter (fun f => isNodal m f && isPrintable m f)) ++
            forEach (fun (k : Numbering) => asciiArray (intScalar H 4) k.toFieldBase n.getNodes)
              (m.numberings.filter
                (fun k => isNodal m k.toFieldBase && isPrintable m k.toFieldBase)) ++
            forEach (fun g => asciiArray (intScalar H 8) g n.getNodes)
              (m.globalNumberings.filter (fun g => isNodal m g && isPrintable m g)) ++
            lit "</PointData>\n") ++
          cellData ++ lit "</Piece>\n" ++ lit "</UnstructuredGrid>\n" ++ lit "</VTKFile>\n") ∧
    writeVtuFile stdHost exScalar (exMesh [11, 10] [exFull]) exNumbering true =
      some (lit "<VTKFile type=\"UnstructuredGrid\" byte_order=\"LittleEndian\" header_type=\"UInt32\">\n<UnstructuredGrid>\n<Piece NumberOfPoints=\"4\" NumberOfCells=\"2\">\n" ++
        lit "<Points>\n<DataArray type=\"Float64\" Name=\"coordinates\" NumberOfComponents=\"3\" format=\"ascii\">\n10 11 12 \n20 21 22 \n30 31 32 \n40 41 42 \n</DataArray>\n</Points>\n" ++
        lit "<Cells>\n<DataArray type=\"Int32\" Name=\"connectivity\" format=\"ascii\">\n0 1 2 3 \n0 1 2 \n</DataArray>\n<DataArray type=\"Int32\" Name=\"offsets\" format=\"ascii\">\n4\n7\n</DataArray>\n<DataArray type=\"UInt8\" Name=\"types\" format=\"ascii\">\n9\n5\n</DataArray>\n</Cells>\n" ++
        lit "<PointData>\n<DataArray type=\"Float64\" Name=\"u\" NumberOfComponents=\"2\" format=\"ascii\">\n1 2 \n2 3 \n3 4 \n4 5 \n</DataArray>\n</PointData>\n" ++
        lit "<CellData>\n<DataArray type=\"Int32\" Name=\"apf_part\" format=\"binary\">\nCAAAAA==AAAAAAAAAAA=\n</DataArray>\n</CellData>\n" ++
        lit "</Piece>\n</UnstructuredGrid>\n</VTKFile>\n") := by
  refine ⟨?_, by decide!⟩
  intro D H SD m n out hout
  obtain ⟨cells, cellData, _, _, h⟩ := writeVtuFile_parts H SD m n true out hout
  rw [vtuOpening_binary] at h
  exact ⟨cells, cellData, h⟩

theorem writeCellData_parts {D : Type} (H : Host) (SD : Scalar D) (m : Mesh D)
    (isWritingBinary : Bool) (out : Text)
    (hout : writeCellData H SD m isWritingBinary = some out) :
    ∃ arrays : Text,
      out = lit "<CellData>\n" ++ arrays ++ writeCellParts H m isWritingBinary ++
        lit "</CellData>\n" := by
  unfold writeCellData at hout
  simp only [Option.bind_eq_bind, Option.pure_def, Option.bind_eq_some] at hout
  obtain ⟨a, _, b, _, c, _, h⟩ := hout
  refine ⟨a ++ b ++ c, ?_⟩
  rw [← Option.some.inj h]
  simp only [List.append_assoc]

theorem writePCellData_parts {D : Type} (m : Mesh D) (out : Text)
    (hout : writePCellData m = some out) :
    ∃ decls : Text,
      out = lit "<PCellData>\n" ++ decls ++ writePCellParts ++ lit "</PCellData>\n" := by
  unfold writePCellData at hout
  simp only [Option.bind_eq_bind, Option.pure_def, Option.bind_eq_some] at hout
  obtain ⟨a, _, b, _, c, _, h⟩ := hout
  refine ⟨a ++ b ++ c, ?_⟩
  rw [← Option.some.inj h]
  simp only [List.append_assoc]

theorem writeIP_PCellData_exists {D T : Type} (m : Mesh D) (f : FieldBase T)
    (h : m.entities m.getDimension ≠ []) : ∃ t, writeIP_PCellData m f = some t := by
  unfold writeIP_PCellData countIPs
  cases he : m.entities m.getDimension with
  | nil => exact absurd he h
  | cons e es => exact ⟨_, rfl⟩

theorem writePCellData_exists {D : Type} (m : Mesh D)
    (h : m.entities m.getDimension ≠ []) : ∃ t, writePCellData m = some t := by
  obtain ⟨a, ha⟩ := forEachOpt_exists
    (fun f => if isIP m f && isPrintable m f then writeIP_PCellData m f else some [])
    m.fields (fun f _ => by
      by_cases hc : (isIP m f && isPrintable m f) = true
      · simp only [hc, if_true]; exact writeIP_PCellData_exists m f h
      · simp only [hc, if_false]; exact ⟨[], rfl⟩)
  obtain ⟨b, hb⟩ := forEachOpt_exists
    (fun (n : Numbering) =>
      if isIP m n.toFieldBase && isPrintable m n.toFieldBase then
        writeIP_PCellData m n.toFieldBase
      else some [])
    m.numberings (fun f _ => by
      by_cases hc : (isIP m f.toFieldBase && isPrintable m f.toFieldBase) = true
      · simp only [hc, if_true]; exact writeIP_PCellData_exists m _ h
      · simp only [hc, if_false]; exact ⟨[], rfl⟩)
  obtain ⟨c, hc⟩ := forEachOpt_exists
    (fun n => if isIP m n && isPrintable m n then writeIP_PCellData m n else some [])
    m.globalNumberings (fun f _ => by
      by_cases hc : (isIP m f && isPrintable m f) = true
      · simp only [hc, if_true]; exact writeIP_PCellData_exists m _ h
      · simp only [hc, if_false]; exact ⟨[], rfl⟩)
  unfold writePCellData
  rw [ha, hb, hc]
  exact ⟨_, rfl⟩

theorem countRows_part_rows (id : Int) (k : Nat) :
    countRows (forEach (fun v => showInt v ++ ['\n']) (List.replicate k id)) = k := by
  rw [countRows_forEach _ _ 1]
  · simp
  · intro v _
    rw [countRows_append, countRows_eq_zero _ (showInt_no_newline v)]
    rfl

/-- C14: for every mesh state, whatever fields are registered, the last array of
`CellData` is `apf_part` of type `Int32`; in ASCII mode it has one row per
top-dimension entity (the number printed as `NumberOfCells`), each row the
partition id; and the last declaration of `PCellData` is `apf_part`.  Both
sections are written whenever the mesh has a top-dimension entity, and also when
no field-like object is registered. -/
theorem apf_part_last {D : Type} (H : Host) (SD : Scalar D) (m : Mesh D)
    (isWritingBinary : Bool) :
    (∀ out, writeCellData H SD m isWritingBinary = some out →
      ∃ arrays : Text,
        out = lit "<CellData>\n" ++ arrays ++ writeCellParts H m isWritingBinary ++
          lit "</CellData>\n") ∧
    (∀ out, writePCellData m = some out →
      ∃ decls : Text,
        out = lit "<PCellData>\n" ++ decls ++
          lit "<PDataArray type=\"Int32\" Name=\"apf_part\" NumberOfComponents=\"1\" format=\"ascii\"/>\n" ++
          lit "</PCellData>\n") ∧
    (m.entities m.getDimension ≠ [] →
      (∃ out, writeCellData H SD m isWritingBinary = some out) ∧
        ∃ out, writePCellData m = some out) ∧
    (m.fields = [] → m.numberings = [] → m.globalNumberings = [] →
      writeCellData H SD m isWritingBinary =
          some (lit "<CellData>\n" ++ writeCellParts H m isWritingBinary ++
            lit "</CellData>\n") ∧
        writePCellData m =
          some (lit "<PCellData>\n" ++ writePCellParts ++ lit "</PCellData>\n")) ∧
    writeCellParts H m false =
      lit "<DataArray type=\"Int32\" Name=\"apf_part\" NumberOfComponents=\"1\" format=\"ascii\">\n" ++
        forEach (fun v => showInt v ++ ['\n'])
          (List.replicate (m.count m.getDimension) m.getId) ++
        lit "</DataArray>\n" ∧
    countRows (forEach (fun v => showInt v ++ ['\n'])
      (List.replicate (m.count m.getDimension) m.getId)) = m.count m.getDimension ∧
    (∃ payload : Text,
      writeCellParts H m true =
        lit "<DataArray type=\"Int32\" Name=\"apf_part\" format=\"binary\">\n" ++ payload ++
          lit "</DataArray>\n") ∧
    (∀ nodes : List Node,
      pieceLine m nodes =
        lit "<Piece NumberOfPoints=\"" ++ showNat nodes.length ++
          lit "\" NumberOfCells=\"" ++ showNat (m.count m.getDimension) ++ lit "\">\n") := by
  refine ⟨writeCellData_parts H SD m isWritingBinary, ?_, ?_, ?_, ?_,
    countRows_part_rows _ _, ?_, fun nodes => rfl⟩
  · intro out hout
    obtain ⟨decls, h⟩ := writePCellData_parts m out hout
    exact ⟨decls, h⟩
  · intro h
    exact ⟨writeCellData_exists H SD m isWritingBinary h, writePCellData_exists m h⟩
  · intro h1 h2 h3
    constructor
    · unfold writeCellData
      rw [h1, h2, h3]
      simp [forEachOpt]
    · unfold writePCellData
      rw [h1, h2, h3]
      simp [forEachOpt]
  · rw [writeCellParts_ascii]
    rfl
  · refine ⟨partsPrefixText H m ++ partsPayloadText H m ++ ['\n'], ?_⟩
    rw [writeCellParts_binary]
    rfl

theorem apf_part_last_witness :
    (∃ out, writeCellData stdHost exScalar (exMesh [11, 10] [exIPField]) false = some out) ∧
    (∃ out, writePCellData (exMesh [11, 10] [exIPField]) = some out) ∧
    writeCellData stdHost exScalar (exEmptyMesh []) false =
      some (lit "<CellData>\n" ++ writeCellParts stdHost (exEmptyMesh []) false ++
        lit "</CellData>\n") :=
  ⟨((apf_part_last stdHost exScalar (exMesh [11, 10] [exIPField]) false).2.2.1
      (by decide)).1,
    ((apf_part_last stdHost exScalar (exMesh [11, 10] [exIPField]) false).2.2.1
      (by decide)).2,
    ((apf_part_last stdHost exScalar (exEmptyMesh []) false).2.2.2.1 rfl rfl rfl).1⟩

/-- C17: a mesh part without top-dimension entities that has a registered
integration-point field.  The field is (vacuously) printable, `countIPs` hands
the null entity that `m->iterate` returns to `countNodesOn`, which is not
defined, and with it the cell data of the piece and of the summary and both
files.  Without such a field the same empty part gives complete arrays with empty
payloads, and a zero-component field gives rows without values. -/
theorem empty_mesh_ip_field_undefined :
    (exEmptyMesh [exIPField]).entities (exEmptyMesh [exIPField]).getDimension = [] ∧
    isIP (exEmptyMesh [exIPField]) exIPField = true ∧
    isPrintable (exEmptyMesh [exIPField]) exIPField = true ∧
    countIPs (exEmptyMesh [exIPField]) exIPField = none ∧
    writeCellData stdHost exScalar (exEmptyMesh [exIPField]) false = none ∧
    writePCellData (exEmptyMesh [exIPField]) = none ∧
    writeVtuFile stdHost exScalar (exEmptyMesh [exIPField]) exEmptyNumbering false = none ∧
    writePvtuFile 1 (lit "out") (exEmptyMesh [exIPField]) = none ∧
    writeVtuFile stdHost exScalar (exEmptyMesh [exZeroComp]) exEmptyNumbering false =
      some (lit "<VTKFile type=\"UnstructuredGrid\">\n<UnstructuredGrid>\n<Piece NumberOfPoints=\"0\" NumberOfCells=\"0\">\n" ++
        lit "<Points>\n<DataArray type=\"Float64\" Name=\"coordinates\" NumberOfComponents=\"3\" format=\"ascii\">\n</DataArray>\n</Points>\n" ++
        lit "<Cells>\n<DataArray type=\"Int32\" Name=\"connectivity\" format=\"ascii\">\n</DataArray>\n<DataArray type=\"Int32\" Name=\"offsets\" format=\"ascii\">\n</DataArray>\n<DataArray type=\"UInt8\" Name=\"types\" format=\"ascii\">\n</DataArray>\n</Cells>\n" ++
        lit "<PointData>\n<DataArray type=\"Float64\" Name=\"z\" NumberOfComponents=\"0\" format=\"ascii\">\n</DataArray>\n</PointData>\n" ++
        lit "<CellData>\n<DataArray type=\"Int32\" Name=\"apf_part\" NumberOfComponents=\"1\" format=\"ascii\">\n</DataArray>\n</CellData>\n" ++
        lit "</Piece>\n</UnstructuredGrid>\n</VTKFile>\n") ∧
    writeNodalField stdHost exScalar exZeroComp exNumbering.getNodes false =
      lit "<DataArray type=\"Float64\" Name=\"z\" NumberOfComponents=\"0\" format=\"ascii\">\n\n\n\n\n</DataArray>\n" := by
  decide!

/-! ## Summary declarations and piece arrays -/

theorem forEachOpt_collect {α β : Type} (body : α → Option Text)
    (items : α → Option (List β)) (render : β → Text) (xs : List α)
    (h : ∀ x ∈ xs, body x = (items x).map (forEach render)) :
    forEachOpt body xs = (collectOpt items xs).map (forEach render) := by
  induction xs with
  | nil => rfl
  | cons x xs ih =>
    simp only [forEachOpt, collectOpt]
    rw [h x (List.mem_cons_self _ _), ih (fun y hy => h y (List.mem_cons_of_mem _ hy))]
    cases items x with
    | none => rfl
    | some t =>
      cases collectOpt items xs with
      | none => rfl
      | some r => simp [forEach_append]

theorem collectOpt_map {α β γ : Type} (items : α → Option (List β)) (g : β → γ)
    (xs : List α) :
    collectOpt (fun x => (items x).map (List.map g)) xs =
      (collectOpt items xs).map (List.map g) := by
  induction xs with
  | nil => rfl
  | cons x xs ih =>
    simp only [collectOpt]
    rw [ih]
    cases items x with
    | none => rfl
    | some t =>
      cases collectOpt items xs with
      | none => rfl
      | some r => simp

theorem collectOpt_congr {α β : Type} (f g : α → Option (List β)) (xs : List α)
    (h : ∀ x ∈ xs, f x = g x) : collectOpt f xs = collectOpt g xs := by
  induction xs with
  | nil => rfl
  | cons x xs ih =>
    simp only [collectOpt]
    rw [h x (List.mem_cons_self _ _), ih (fun y hy => h y (List.mem_cons_of_mem _ hy))]

theorem writeIP_PCellData_decls {D T : Type} (m : Mesh D) (f : FieldBase T) :
    writeIP_PCellData m f = (countIPs m f).map (fun n => forEach declareArray (ipDecls f n)) := by
  unfold writeIP_PCellData
  cases countIPs m f with
  | none => rfl
  | some n =>
    simp only [Option.bind_eq_bind, Option.some_bind, Option.pure_def, Option.map_some']
    rw [forUpTo_eq_forEach]
    unfold ipDecls
    rw [forEach_map]
    rfl

theorem WriteIPField_run_arrays_eq {D T : Type} (S : Scalar T) (m : Mesh D) (f : FieldBase T) :
    WriteIPField.run S m f =
      (countIPs m f).map (fun n => forEach emitArray (ipArraysOf S m f n)) := by
  unfold WriteIPField.run
  cases countIPs m f with
  | none => rfl
  | some n =>
    simp only [Option.bind_eq_bind, Option.some_bind, Option.pure_def, Option.map_some']
    rw [forUpTo_eq_forEach]
    unfold ipArraysOf
    rw [forEach_map]
    rfl

theorem ipArraysOf_decls {D T : Type} (S : Scalar T) (m : Mesh D) (f : FieldBase T) (n : Nat) :
    (ipArraysOf S m f n).map Prod.fst = ipDecls f n := by
  simp [ipArraysOf, ipDecls]

theorem gated_decls {D T : Type} (m : Mesh D) (f : FieldBase T) :
    (if isIP m f && isPrintable m f then writeIP_PCellData m f else some []) =
      (if isIP m f && isPrintable m f then (countIPs m f).map (ipDecls f)
        else some []).map (forEach declareArray) := by
  cases isIP m f && isPrintable m f
  · rfl
  · simp only [if_true]
    rw [writeIP_PCellData_decls, Option.map_map]
    rfl

theorem gated_arrays {D T : Type} (S : Scalar T) (m : Mesh D) (f : FieldBase T) :
    (if isIP m f && isPrintable m f then WriteIPField.run S m f else some []) =
      (if isIP m f && isPrintable m f then (countIPs m f).map (ipArraysOf S m f)
        else some []).map (forEach emitArray) := by
  cases isIP m f && isPrintable m f
  · rfl
  · simp only [if_true]
    rw [WriteIPField_run_arrays_eq, Option.map_map]
    rfl

theorem gated_fst {D T : Type} (S : Scalar T) (m : Mesh D) (f : FieldBase T) :
    (if isIP m f && isPrintable m f then (countIPs m f).map (ipArraysOf S m f)
        else some []).map (List.map Prod.fst) =
      (if isIP m f && isPrintable m f then (countIPs m f).map (ipDecls f) else some []) := by
  cases isIP m f && isPrintable m f
  · rfl
  · simp only [if_true]
    rw [Option.map_map]
    cases countIPs m f with
    | none => rfl
    | some n => simp [ipArraysOf_decls]

theorem writePPointData_decls {D : Type} (m : Mesh D) :
    writePPointData m =
      lit "<PPointData>\n" ++ forEach declareArray (pointDecls m) ++ lit "</PPointData>\n" := by
  unfold writePPointData pointDecls
  rw [forEach_filter (fun f => writePDataArrayOf f),
    forEach_filter (fun (n : Numbering) => writePDataArrayOf n.toFieldBase),
    forEach_filter (fun n => writePDataArrayOf n)]
  simp only [forEach_append, forEach_map, List.append_assoc]
  rfl

theorem writePointData_arrays {D : Type} (H : Host) (SD : Scalar D) (m : Mesh D)
    (nodes : List Node) :
    writePointData H SD m nodes =
      lit "<PointData>\n" ++ forEach emitArray (pointArrays H SD m nodes) ++
        lit "</PointData>\n" := by
  rw [writePointData_eq]
  unfold pointArrays
  simp only [forEach_append, forEach_map, List.append_assoc]
  rfl

theorem writePCellData_decls {D : Type} (m : Mesh D) :
    writePCellData m =
      (cellDecls m).map (fun ds =>
        lit "<PCellData>\n" ++ forEach declareArray ds ++ lit "</PCellData>\n") := by
  unfold writePCellData cellDecls
  rw [forEachOpt_collect _ _ declareArray m.fields (fun f _ => gated_decls m f),
    forEachOpt_collect _ _ declareArray m.numberings
      (fun k _ => gated_decls m k.toFieldBase),
    forEachOpt_collect _ _ declareArray m.globalNumberings (fun g _ => gated_decls m g)]
  cases collectOpt (fun f => if isIP m f && isPrintable m f then
      (countIPs m f).map (ipDecls f) else some []) m.fields with
  | none => rfl
  | some a =>
    cases collectOpt (fun (k : Numbering) =>
        if isIP m k.toFieldBase && isPrintable m k.toFieldBase then
          (countIPs m k.toFieldBase).map (ipDecls k.toFieldBase) else some [])
        m.numberings with
    | none => rfl
    | some b =>
      cases collectOpt (fun g => if isIP m g && isPrintable m g then
          (countIPs m g).map (ipDecls g) else some []) m.globalNumberings with
      | none => rfl
      | some c =>
        simp only [Option.map_some', Option.bind_eq_bind, Option.some_bind, Option.pure_def,
          forEach_append, forEach, List.append_assoc, List.append_nil]
        rfl

theorem writeCellData_arrays {D : Type} (H : Host) (SD : Scalar D) (m : Mesh D) :
    writeCellData H SD m false =
      (cellArrays H SD m).map (fun arrays =>
        lit "<CellData>\n" ++ forEach emitArray arrays ++ lit "</CellData>\n") := by
  unfold writeCellData cellArrays
  rw [forEachOpt_collect _ _ emitArray m.fields (fun f _ => gated_arrays SD m f),
    forEachOpt_collect _ _ emitArray m.numberings
      (fun k _ => gated_arrays (intScalar H 4) m k.toFieldBase),
    forEachOpt_collect _ _ emitArray m.globalNumberings
      (fun g _ => gated_arrays (intScalar H 8) m g)]
  cases collectOpt (fun f => if isIP m f && isPrintable m f then
      (countIPs m f).map (ipArraysOf SD m f) else some []) m.fields with
  | none => rfl
  | some a =>
    cases collectOpt (fun (k : Numbering) =>
        if isIP m k.toFieldBase && isPrintable m k.toFieldBase then
          (countIPs m k.toFieldBase).map (ipArraysOf (intScalar H 4) m k.toFieldBase)
        else some []) m.numberings with
    | none => rfl
    | some b =>
      cases collectOpt (fun g => if isIP m g && isPrintable m g then
          (countIPs m g).map (ipArraysOf (intScalar H 8) m g) else some [])
          m.globalNumberings with
      | none => rfl
      | some c =>
        simp only [Option.map_some', Option.bind_eq_bind, Option.some_bind, Option.pure_def,
          forEach_append, forEach, List.append_assoc, List.append_nil]
        simp [writeCellParts, emitArray]

theorem cellArrays_decls {D : Type} (H : Host) (SD : Scalar D) (m : Mesh D) :
    (cellArrays H SD m).map (List.map Prod.fst) = cellDecls m := by
  unfold cellArrays cellDecls
  rw [← collectOpt_congr _ _ m.fields (fun f _ => gated_fst SD m f),
    ← collectOpt_congr _ _ m.numberings
      (fun k _ => gated_fst (intScalar H 4) m k.toFieldBase),
    ← collectOpt_congr _ _ m.globalNumberings (fun g _ => gated_fst (intScalar H 8) m g),
    collectOpt_map, collectOpt_map, collectOpt_map]
  cases collectOpt (fun f => if isIP m f && isPrintable m f then
      (countIPs m f).map (ipArraysOf SD m f) else some []) m.fields with
  | none => rfl
  | some a =>
    cases collectOpt (fun (k : Numbering) =>
        if isIP m k.toFieldBase && isPrintable m k.toFieldBase then
          (countIPs m k.toFieldBase).map (ipArraysOf (intScalar H 4) m k.toFieldBase)
        else some []) m.numberings with
    | none => rfl
    | some b =>
      cases collectOpt (fun g => if isIP m g && isPrintable m g then
          (countIPs m g).map (ipArraysOf (intScalar H 8) m g) else some [])
          m.globalNumberings with
      | none => rfl
      | some c => simp

theorem pointArrays_decls {D : Type} (H : Host) (SD : Scalar D) (m : Mesh D)
    (nodes : List Node) : (pointArrays H SD m nodes).map Prod.fst = pointDecls m := by
  unfold pointArrays pointDecls
  simp only [List.map_append, List.map_map]
  rfl

/-- C15: for every mesh state, the summary file declares exactly the arrays the
ASCII piece emits, entry by entry and in the same order: `PPointData` and
`PointData` hold the same sequence of (name, type tag, component count), all
nodal printable value fields in registration order, then numberings, then
global numberings; `PCellData` and `CellData` hold the same sequence, the
arrays of the printable integration-point objects in that order and `apf_part`
last; both cell sections are defined for the same mesh states.  The tag of an
array is the scalar type of its object, printed `Float64`, `Int32`, `Int64`. -/
theorem summary_matches_piece {D : Type} (H : Host) (SD : Scalar D) (m : Mesh D)
    (nodes : List Node) :
    writePPointData m =
      lit "<PPointData>\n" ++ forEach declareArray (pointDecls m) ++ lit "</PPointData>\n" ∧
    writePointData H SD m nodes =
      lit "<PointData>\n" ++ forEach emitArray (pointArrays H SD m nodes) ++
        lit "</PointData>\n" ∧
    (pointArrays H SD m nodes).map Prod.fst = pointDecls m ∧
    writePCellData m =
      (cellDecls m).map (fun ds =>
        lit "<PCellData>\n" ++ forEach declareArray ds ++ lit "</PCellData>\n") ∧
    writeCellData H SD m false =
      (cellArrays H SD m).map (fun arrays =>
        lit "<CellData>\n" ++ forEach emitArray arrays ++ lit "</CellData>\n") ∧
    (cellArrays H SD m).map (List.map Prod.fst) = cellDecls m ∧
    (∀ d : ArrayDecl,
      declareArray d =
        lit "<PDataArray type=\"" ++ typeNames d.type ++ lit "\" Name=\"" ++ d.name ++
          lit "\" NumberOfComponents=\"" ++ showNat d.components ++
          lit "\" format=\"ascii\"/>\n") ∧
    (∀ (d : ArrayDecl) (payload : Text),
      emitArray (d, payload) =
        lit "<DataArray type=\"" ++ typeNames d.type ++ lit "\" Name=\"" ++ d.name ++
          lit "\" NumberOfComponents=\"" ++ showNat d.components ++
          lit "\" format=\"ascii\">\n" ++ payload ++ lit "</DataArray>\n") ∧
    (typeNames ValueType.DOUBLE = lit "Float64" ∧ typeNames ValueType.INT = lit "Int32" ∧
      typeNames ValueType.LONG = lit "Int64") ∧
    ((∀ f ∈ m.fields, f.getScalarType = ValueType.DOUBLE) →
      (∀ k ∈ m.numberings, k.getScalarType = ValueType.INT) →
      (∀ g ∈ m.globalNumberings, g.getScalarType = ValueType.LONG) →
      pointDecls m =
        (m.fields.filter (fun f => isNodal m f && isPrintable m f)).map
            (fun f => ArrayDecl.mk f.getName ValueType.DOUBLE f.countComponents) ++
          (m.numberings.filter
            (fun k => isNodal m k.toFieldBase && isPrintable m k.toFieldBase)).map
            (fun k => ArrayDecl.mk k.getName ValueType.INT k.countComponents) ++
          (m.globalNumberings.filter (fun g => isNodal m g && isPrintable m g)).map
            (fun g => ArrayDecl.mk g.getName ValueType.LONG g.countComponents)) := by
  refine ⟨writePPointData_decls m, writePointData_arrays H SD m nodes,
    pointArrays_decls H SD m nodes, writePCellData_decls m, writeCellData_arrays H SD m,
    cellArrays_decls H SD m, ?_, ?_, ⟨rfl, rfl, rfl⟩, ?_⟩
  · intro d
    simp only [declareArray, writePDataArray, describeArray, List.append_assoc,
      Bool.false_eq_true, if_false]
    rfl
  · intro d payload
    simp only [emitArray, writeDataHeader, describeArray, List.append_assoc,
      Bool.false_eq_true, if_false]
    rfl
  · intro h1 h2 h3
    unfold pointDecls
    congr 1
    · congr 1
      · apply List.map_congr_left
        intro f hf
        unfold declOf
        rw [h1 f (List.mem_of_mem_filter hf)]
      · apply List.map_congr_left
        intro k hk
        unfold declOf
        rw [h2 k (List.mem_of_mem_filter hk)]
    · apply List.map_congr_left
      intro g hg
      unfold declOf
      rw [h3 g (List.mem_of_mem_filter hg)]

theorem summary_matches_piece_witness :
    pointDecls (exMesh [11, 10] [exFull, exPartial]) =
      [ArrayDecl.mk (lit "u") ValueType.DOUBLE 2] :=
  (summary_matches_piece stdHost exScalar (exMesh [11, 10] [exFull, exPartial])
    exNumbering.getNodes).2.2.2.2.2.2.2.2.2 (by decide) (by decide) (by decide)

end apf
